import Mathlib

/-!
# Waypoint core: component binding, dynamic invocation and the build stage

A shallow embedding of `internal/core/app.go` and `internal/core/app_build.go`.

Conventions of the embedding:

* A Go interface value is an `Option Value`: `none` is the nil interface, `some v` a
  value with an identity and a dynamic type. Two interface values are equal when
  their dynamic types and identities are equal, as in Go.
* A Go pointer to a record is an `Option` of the record (`none` is the nil pointer).
* `map[K]V` is an association list with at most one pair per key
  (`mapGet`, `mapSet`, `mapKeys`); indexing or storing with a key whose dynamic type
  is not hashable panics (`mapIndex`, `mapStore`).
* A Go function ends by returning (`Res.ret`) or by panicking (`Res.panic`).
* Collaborators that are not part of these two files (the argument mapper, the
  factories, the data directories, the configuration decoder, the plugin
  instances, `doOperation`, `PushBuild`) are fields of `Env`; every theorem
  quantifies over all of them.
* The calls a claim speaks about are recorded in `World.trace`.
-/

set_option linter.dupNamespace false

namespace Waypoint

/-! ## Results and errors -/

/-- How a Go function call ends: it returns a value or it panics. -/
inductive Res (α : Type) where
  | ret (a : α)
  | panic (msg : String)
  deriving DecidableEq, Repr

/-- The gRPC status codes used by the two files. -/
inductive Code where
  | NotFound
  | FailedPrecondition
  deriving DecidableEq, Repr

/-- Severity of one configuration diagnostic (hcl.DiagnosticSeverity). -/
inductive Severity where
  | DiagError
  | DiagWarning
  deriving DecidableEq, Repr

/-- One structured configuration diagnostic (hcl.Diagnostic). -/
structure Diagnostic where
  Severity : Severity
  Summary : String
  deriving DecidableEq, Repr

/-- Whether a diagnostics list holds at least one error (hcl.Diagnostics.HasErrors). -/
def HasErrors (diag : List Diagnostic) : Bool :=
  diag.any (fun d => decide (d.Severity = Severity.DiagError))

/-- A Go error value, by the way it was made. -/
inductive Error where
  /-- An error built by status.Error or status.Errorf: it carries a gRPC code. -/
  | status (c : Code) (msg : String)
  /-- An error built by fmt.Errorf: a plain message with no gRPC code. -/
  | errorf (msg : String)
  /-- A diagnostics value returned as an error. -/
  | diag (d : List Diagnostic)
  /-- An error handed back by a collaborator. -/
  | ext (msg : String)
  deriving DecidableEq, Repr

/-! ## Values, types and capabilities -/

/-- The capability interfaces of the component package that the code names. -/
inductive Iface where
  | Builder
  | Registry
  | Platform
  | ReleaseManager
  | PlatformReleaser
  | Artifact
  deriving DecidableEq, Repr

/-- The text reflect prints for an interface type. -/
def Iface.String : Iface → String
  | Iface.Builder => "component.Builder"
  | Iface.Registry => "component.Registry"
  | Iface.Platform => "component.Platform"
  | Iface.ReleaseManager => "component.ReleaseManager"
  | Iface.PlatformReleaser => "component.PlatformReleaser"
  | Iface.Artifact => "component.Artifact"

/-- A concrete (dynamic) Go type: its printed name, the interfaces it implements,
and whether its values can be map keys (pointers can; slices, maps, functions and
structs holding them cannot). -/
structure GoType where
  name : String
  impls : List Iface
  hashable : Bool
  deriving DecidableEq, Repr

/-- Whether the type implements the interface (reflect.Type.Implements; for an
interface target this is also reflect.Type.AssignableTo). -/
def GoType.Implements (t : GoType) (i : Iface) : Bool :=
  decide (i ∈ t.impls)

/-- A non-nil interface value: an identity together with its dynamic type. -/
structure Value where
  id : Nat
  typ : GoType
  deriving DecidableEq, Repr

/-- The text of the verb percent-T for an interface value. -/
def typeName : Option Value → String
  | none => "<nil>"
  | some v => v.typ.name

/-- An argmapper.Func, by identity. -/
structure Func where
  id : Nat
  deriving DecidableEq, Repr

/-- A function reference handed to callDynamicFunc as an interface value. -/
inductive FuncRef where
  /-- The value already is an argmapper.Func. -/
  | mapperFunc (f : Func)
  /-- Any other value, a plain Go function included; argmapper.NewFunc decides. -/
  | other (id : Nat)
  deriving DecidableEq, Repr

/-- The component roles (component.Type). -/
inductive ComponentType where
  | BuilderType
  | RegistryType
  | PlatformType
  | ReleaseManagerType
  | MapperType
  deriving DecidableEq, Repr

/-- The printed name of a role (component.Type.String). -/
def ComponentType.String : ComponentType → String
  | ComponentType.BuilderType => "Builder"
  | ComponentType.RegistryType => "Registry"
  | ComponentType.PlatformType => "Platform"
  | ComponentType.ReleaseManagerType => "ReleaseManager"
  | ComponentType.MapperType => "Mapper"

/-! ## Maps -/

/-- Map read: the value stored under the key, if any. -/
def mapGet {κ ν : Type} [DecidableEq κ] : List (κ × ν) → κ → Option ν
  | [], _ => none
  | (k, v) :: rest, key => if k = key then some v else mapGet rest key

/-- Map write: the key now holds the value; an older pair for the key is dropped. -/
def mapSet {κ ν : Type} [DecidableEq κ] (m : List (κ × ν)) (key : κ) (v : ν) : List (κ × ν) :=
  (key, v) :: m.filter (fun p => decide (p.1 ≠ key))

/-- The keys of a map. -/
def mapKeys {κ ν : Type} (m : List (κ × ν)) : List κ :=
  m.map Prod.fst

/-- Whether an interface value can be a map key: nil can, any other value when its
dynamic type is hashable. -/
def keyHashable : Option Value → Bool
  | none => true
  | some v => v.typ.hashable

/-- The index expression of a map keyed by interface values, with its presence
flag: the runtime panics on a key of unhashable type. -/
def mapIndex {ν : Type} (m : List (Option Value × ν)) (key : Option Value) : Res (Option ν) :=
  if keyHashable key then Res.ret (mapGet m key)
  else Res.panic "runtime error: hash of unhashable type"

/-- The store into a map keyed by interface values: the runtime panics on a key of
unhashable type. -/
def mapStore {ν : Type} (m : List (Option Value × ν)) (key : Option Value) (v : ν) :
    Res (List (Option Value × ν)) :=
  if keyHashable key then Res.ret (mapSet m key v)
  else Res.panic "runtime error: hash of unhashable type"

/-! ## Protobuf records and configuration -/

/-- Reference to an application (pb.Ref_Application). -/
structure Ref_Application where
  Application : String
  Project : String
  deriving DecidableEq, Repr

/-- Reference to a workspace (pb.Ref_Workspace). -/
structure Ref_Workspace where
  Workspace : String
  deriving DecidableEq, Repr

/-- Component info stored with operation records (pb.Component). -/
structure Component where
  Type_ : ComponentType
  Name : String
  deriving DecidableEq, Repr

/-- Outcome sub-record of an operation record (pb.Status), by identity. -/
structure Status where
  id : Nat
  deriving DecidableEq, Repr

/-- Payload slot of a build record (pb.Artifact); the inner field is an opaque reference. -/
structure Artifact where
  Artifact : Option Nat
  deriving DecidableEq, Repr

/-- The build record (pb.Build), with the fields the two files touch. -/
structure Build where
  Application : Option Ref_Application
  Workspace : Option Ref_Workspace
  Component : Option Component
  Status : Option Status
  Artifact : Option Artifact
  deriving DecidableEq, Repr

/-- The record PushBuild produces (pb.PushedArtifact), by identity. -/
structure PushedArtifact where
  id : Nat
  deriving DecidableEq, Repr

/-- A proto.Message as found behind the interface: a build record pointer or some
other message type. -/
inductive Message where
  | build (b : Option Build)
  | other (id : Nat)
  deriving DecidableEq, Repr

/-- A lifecycle hook of the configuration (config.Hook). -/
structure Hook where
  When : String
  Command : List String
  deriving DecidableEq, Repr

/-- The use stanza of an operation (config.Use): the type name and the body to decode. -/
structure Use where
  Type_ : String
  Body : Nat
  deriving DecidableEq, Repr

/-- One configured operation (config.Operation); its hooks are pointers. -/
structure Operation where
  Use : Option Use
  Hooks : List (Option Hook)
  Labels : List (String × String)
  deriving DecidableEq, Repr

/-- A data directory handle (datadir.App, datadir.Component), by path. -/
structure Dir where
  path : String
  deriving DecidableEq, Repr

/-- The source descriptor (component.Source). -/
structure Source where
  App : String
  Path : String
  deriving DecidableEq, Repr

/-! ## The App -/

/-- Metadata of one bound component (appComponent). -/
structure appComponent where
  Info : Option Component
  Dir : Option Dir
  Labels : List (String × String)
  Hooks : List (String × List Hook)
  deriving DecidableEq, Repr

/-- The closure of a cleanup action in the closers list: the plugin instance it
disposes, and what a call of the closure does, which is to return a value or to
panic. The two files only register closures that close one plugin instance and
then return nil. -/
structure Closer where
  pinst : Nat
  run : Res (Option Error)
  deriving DecidableEq, Repr

/-- The application configuration (config.App), with the results of its four
operation accessors. -/
structure ConfigApp where
  Name : String
  Path : String
  Labels : List (String × String)
  BuildOperation : Option Operation
  RegistryOperation : Option Operation
  DeployOperation : Option Operation
  ReleaseOperation : Option Operation
  deriving DecidableEq, Repr

/-- A single application (App). The client, the logger and the project back pointer
carry no behaviour of their own in the two files and are left out. -/
structure App where
  Builder : Option Value
  Registry : Option Value
  Platform : Option Value
  Releaser : Option Value
  config : Option ConfigApp
  ref : Option Ref_Application
  workspace : Option Ref_Workspace
  source : Option Source
  jobInfo : Option Nat
  dir : Option Dir
  mappers : List Func
  components : List (Option Value × Option appComponent)
  closers : List Closer
  deriving DecidableEq, Repr

/-! ## Arguments of dynamic calls and the world -/

/-- One value handed to argmapper.Typed. -/
inductive TypedVal where
  | ctx
  | logger (name : String)
  | source (s : Option Source)
  | jobInfo (j : Option Nat)
  | appDir (d : Option Dir)
  | componentDir (d : Option Dir)
  | ui
  deriving DecidableEq, Repr

/-- One argument of an argmapper call (argmapper.Arg). -/
inductive Arg where
  | ConverterFunc (ms : List Func)
  | Typed (vs : List TypedVal)
  | NamedLabels (name : String) (labels : List (String × String))
  | extra (id : Nat)
  deriving DecidableEq, Repr

/-- An option of PushBuild; the build stage passes PushWithBuild of the new record. -/
inductive PushOption where
  | PushWithBuild (b : Option Build)
  deriving DecidableEq, Repr

/-- The calls recorded while the code runs. -/
inductive Event where
  /-- The method doOperation was called with a buildOperation. -/
  | doOperationBuild
  /-- The method PushBuild was called with these options. -/
  | PushBuild (opts : List PushOption)
  /-- The call rawFunc.Call of callDynamicFunc ran with these arguments; it resolves
  the parameters and then calls the target function, at most once. -/
  | call (f : Func) (args : List Arg)
  /-- The status scope of the UI was closed. -/
  | statusClose
  /-- A cleanup action ran. -/
  | closer (c : Closer)
  deriving DecidableEq, Repr

/-- Whether the event is a call of a dynamic function. -/
def Event.isCall : Event → Bool
  | Event.call _ _ => true
  | _ => false

/-- Whether the event is a close of the status scope. -/
def Event.isStatusClose : Event → Bool
  | Event.statusClose => true
  | _ => false

/-- What is observable outside the App: whether the UI status scope is open, and the
calls made so far, oldest first. -/
structure World where
  statusOpen : Bool
  trace : List Event
  deriving DecidableEq, Repr

/-- Record one call. -/
def World.log (w : World) (e : Event) : World :=
  { w with trace := w.trace ++ [e] }

/-- Closing the status scope of the UI: the scope is closed afterwards, whatever it
was before. -/
def World.closeStatus (w : World) : World :=
  { statusOpen := false, trace := w.trace ++ [Event.statusClose] }

/-- What one argmapper call gives back: the error of the result, the outputs of
the function, and whether the called function left a status scope open on the UI. -/
structure CallResult where
  Err : Option Error
  Out : List (Option Value)
  leavesStatusOpen : Bool
  deriving DecidableEq, Repr

/-- What a factory function hands back as its first output. -/
inductive FactoryOut where
  /-- A plugin.Instance: the component, its mappers, and the instance to close. -/
  | pinst (id : Nat) (Component : Option Value) (Mappers : List Func)
  /-- Any other value, nil included. -/
  | bare (v : Option Value)
  deriving DecidableEq, Repr

/-- A factory (factory.Factory): the registered names and the function of a name. -/
structure Factory where
  Registered : List String
  Func : String → Option Func

/-- The project a new App belongs to (Project), with what newApp reads from it. -/
structure Project where
  name : String
  root : String
  jobInfo : Option Nat
  mappers : List Func
  WorkspaceRef : Option Ref_Workspace
  factories : ComponentType → Option Factory

/-- The collaborators of the two files. -/
structure Env where
  /-- The method doOperation run with a buildOperation: the message and the error. -/
  doOperation : App → Option Message × Option Error
  /-- The method PushBuild: the pushed artifact and the error. -/
  PushBuild : App → List PushOption → Option PushedArtifact × Option Error
  /-- The function argmapper.NewFunc on a non-nil value that is not yet an
  argmapper.Func: the wrapped function, or an error for a value it refuses. -/
  NewFunc : Nat → Except Error Func
  /-- The call of a dynamic function through argmapper. -/
  Call : Func → List Arg → CallResult
  /-- The call of a factory function: an error or the first output. -/
  FactoryCall : Func → List TypedVal → Except Error FactoryOut
  /-- The data directory of an app (datadir.Project.App). -/
  dirApp : String → Except Error Dir
  /-- The data directory of a component (datadir.App.Component). -/
  dirComponent : Option Dir → String → String → Except Error Dir
  /-- The diagnostics of component.Configure. -/
  Configure : Option Value → Nat → List Diagnostic
  /-- The method DefaultReleaserFunc of a platform that implements PlatformReleaser. -/
  DefaultReleaserFunc : Value → Option FuncRef
  /-- The function filepath.Join. -/
  Join : String → String → String
  /-- The text of the verb percent-q for a string (strconv.Quote). -/
  Quote : String → String
  /-- The method Close of a plugin instance: it returns or it panics. -/
  InstanceClose : Nat → Res Unit

/-! ## app_build.go -/

/-- The options of a build (buildOptions). -/
structure buildOptions where
  Push : Bool
  deriving DecidableEq, Repr

/-- An option function (BuildOption): the options it leaves behind and its error. -/
abbrev BuildOption := buildOptions → buildOptions × Option Error

/-- The option that sets whether the build pushes (BuildWithPush). -/
def BuildWithPush (v : Bool) : BuildOption :=
  fun opts => ({ opts with Push := v }, none)

/-- The default options: the build pushes (defaultBuildOptions). -/
def defaultBuildOptions : buildOptions :=
  { Push := true }

/-- Validation of the options: never an error (buildOptions.Validate). -/
def buildOptions.Validate (_opts : buildOptions) : Option Error :=
  none

/-- The loop of newBuildOptions over the option functions. -/
def applyBuildOptions (d : buildOptions) : List BuildOption → Option buildOptions × Option Error
  | [] => (some d, d.Validate)
  | f :: rest =>
    match f d with
    | (_, some err) => (none, some err)
    | (d1, none) => applyBuildOptions d1 rest

/-- Apply the option functions in order to the defaults (newBuildOptions). -/
def newBuildOptions (opts : List BuildOption) : Option buildOptions × Option Error :=
  applyBuildOptions defaultBuildOptions opts

/-- Build the artifact and, unless told otherwise, push it (App.Build). -/
def App.Build (env : Env) (a : App) (optFuncs : List BuildOption) (w : World) :
    Res (Option Build × Option PushedArtifact × Option Error) × World :=
  match newBuildOptions optFuncs with
  | (_, some err) => (Res.ret (none, none, some err), w)
  | (none, none) => (Res.panic "nil pointer dereference", w)
  | (some opts, none) =>
    let w1 := w.log Event.doOperationBuild
    match env.doOperation a with
    | (_, some err) => (Res.ret (none, none, some err), w1)
    | (none, none) => (Res.panic "interface conversion: interface is nil", w1)
    | (some (Message.other _), none) => (Res.panic "interface conversion: not *pb.Build", w1)
    | (some (Message.build build), none) =>
      if !opts.Push then
        (Res.ret (build, none, none), w1)
      else
        let w2 := w1.log (Event.PushBuild [PushOption.PushWithBuild build])
        match env.PushBuild a [PushOption.PushWithBuild build] with
        | (artifact, err) => (Res.ret (build, artifact, err), w2)

/-- The first step of the build operation: the empty record seeded with the identity
fields, or NotFound when no builder is bound (buildOperation.Init). -/
def buildOperation.Init (app : App) : Res (Option Build × Option Error) :=
  match mapIndex app.components app.Builder with
  | Res.panic msg => Res.panic msg
  | Res.ret none => Res.ret (none, some (Error.status Code.NotFound "no builder configured"))
  | Res.ret (some none) => Res.panic "nil pointer dereference"
  | Res.ret (some (some builder)) =>
    Res.ret (some { Application := app.ref, Workspace := app.workspace,
                    Component := builder.Info, Status := none, Artifact := none }, none)

/-- The hooks of the builder, nil when none is bound (buildOperation.Hooks). -/
def buildOperation.Hooks (app : App) : Res (List (String × List Hook)) :=
  match mapIndex app.components app.Builder with
  | Res.panic msg => Res.panic msg
  | Res.ret none => Res.ret []
  | Res.ret (some none) => Res.panic "nil pointer dereference"
  | Res.ret (some (some builder)) => Res.ret builder.Hooks

/-- The labels of the builder, nil when none is bound (buildOperation.Labels). -/
def buildOperation.Labels (app : App) : Res (List (String × String)) :=
  match mapIndex app.components app.Builder with
  | Res.panic msg => Res.panic msg
  | Res.ret none => Res.ret []
  | Res.ret (some none) => Res.panic "nil pointer dereference"
  | Res.ret (some (some builder)) => Res.ret builder.Labels

/-! ## app.go -/

/-- The loop of Close: call every closer in order and ignore what it returns; a
closer that panics ends the loop there. -/
def closeLoop : List Closer → World → Res Unit × World
  | [], w => (Res.ret (), w)
  | c :: rest, w =>
    match c.run with
    | Res.ret _ => closeLoop rest (w.log (Event.closer c))
    | Res.panic msg => (Res.panic msg, w.log (Event.closer c))

/-- Clean up: run every closer in order, ignoring what it returns, and return nil
(App.Close). -/
def App.Close (a : App) (w : World) : Res (Option Error) × World :=
  match closeLoop a.closers w with
  | (Res.ret _, w1) => (Res.ret none, w1)
  | (Res.panic msg, w1) => (Res.panic msg, w1)

/-- The reference of the application (App.Ref). -/
def App.Ref (a : App) : Option Ref_Application :=
  a.ref

/-- The components initialised for the app: the keys of the metadata map
(App.Components). -/
def App.Components (a : App) : List (Option Value) :=
  mapKeys a.components

/-- The proto info of a component, nil when it is not part of the app
(App.ComponentProto). -/
def App.ComponentProto (a : App) (c : Option Value) : Res (Option Component) :=
  match mapIndex a.components c with
  | Res.panic msg => Res.panic msg
  | Res.ret none => Res.ret none
  | Res.ret (some none) => Res.panic "nil pointer dereference"
  | Res.ret (some (some info)) => Res.ret info.Info

/-- The first lines of callDynamicFunc: a value that already is an argmapper.Func
is used as it is, any other non-nil value goes through argmapper.NewFunc, which
wraps it or refuses it with an error; on a nil value argmapper.NewFunc panics. -/
def rawFuncOf (env : Env) (f : Option FuncRef) : Res (Except Error Func) :=
  match f with
  | some (FuncRef.mapperFunc fn) => Res.ret (Except.ok fn)
  | some (FuncRef.other id) => Res.ret (env.NewFunc id)
  | none => Res.panic "reflect: nil function value"

/-- The arguments callDynamicFunc hands to the call: the given ones, then the
mappers of the app as converters, the typed values, and the labels by name. -/
def dynamicArgs (a : App) (log : String) (componentData : appComponent) (args : List Arg) :
    List Arg :=
  args ++
    [ Arg.ConverterFunc a.mappers,
      Arg.Typed [TypedVal.ctx, TypedVal.logger log, TypedVal.source a.source,
                 TypedVal.jobInfo a.jobInfo, TypedVal.appDir a.dir,
                 TypedVal.componentDir componentData.Dir, TypedVal.ui],
      Arg.NamedLabels "labels" componentData.Labels ]

/-- Call a dynamic function with the common values injected and check the type of
its result (App.callDynamicFunc). The argument result is the expected capability,
none when no check is asked for. The deferred close of the status scope is
registered after the two early returns and runs on every later way out. -/
def App.callDynamicFunc (env : Env) (a : App) (log : String) (result : Option Iface)
    (c : Option Value) (f : Option FuncRef) (args : List Arg) (w : World) :
    Res (Option Value × Option Error) × World :=
  match rawFuncOf env f with
  | Res.panic msg => (Res.panic msg, w)
  | Res.ret (Except.error err) => (Res.ret (none, some err), w)
  | Res.ret (Except.ok rawFunc) =>
    match mapIndex a.components c with
    | Res.panic msg => (Res.panic msg, w)
    | Res.ret none =>
      (Res.ret (none, some (Error.errorf ("component dir not found for: " ++ typeName c))), w)
    | Res.ret (some none) => (Res.panic "nil pointer dereference", w.closeStatus)
    | Res.ret (some (some componentData)) =>
      let args1 := dynamicArgs a log componentData args
      let callResult := env.Call rawFunc args1
      let w1 : World :=
        { statusOpen := callResult.leavesStatusOpen,
          trace := w.trace ++ [Event.call rawFunc args1] }
      match callResult.Err with
      | some err => (Res.ret (none, some err), w1.closeStatus)
      | none =>
        match callResult.Out with
        | [] => (Res.panic "runtime error: index out of range", w1.closeStatus)
        | raw :: _ =>
          match result with
          | none => (Res.ret (raw, none), w1.closeStatus)
          | some interfaceType =>
            match raw with
            | none => (Res.panic "nil pointer dereference", w1.closeStatus)
            | some rawV =>
              if !rawV.typ.Implements interfaceType then
                (Res.ret (none, some (Error.status Code.FailedPrecondition
                  ("operation expected result type " ++ interfaceType.String ++
                   ", got " ++ rawV.typ.name))), w1.closeStatus)
              else
                (Res.ret (raw, none), w1.closeStatus)

/-- The four capability fields of an App. -/
inductive Slot where
  | Builder
  | Registry
  | Platform
  | Releaser
  deriving DecidableEq, Repr

/-- The declared interface type of a capability field. -/
def Slot.Iface : Slot → Iface
  | Slot.Builder => Iface.Builder
  | Slot.Registry => Iface.Registry
  | Slot.Platform => Iface.Platform
  | Slot.Releaser => Iface.ReleaseManager

/-- Read a capability field. -/
def App.slot (a : App) : Slot → Option Value
  | Slot.Builder => a.Builder
  | Slot.Registry => a.Registry
  | Slot.Platform => a.Platform
  | Slot.Releaser => a.Releaser

/-- Write a capability field. -/
def App.setSlot (a : App) (s : Slot) (v : Option Value) : App :=
  match s with
  | Slot.Builder => { a with Builder := v }
  | Slot.Registry => { a with Registry := v }
  | Slot.Platform => { a with Platform := v }
  | Slot.Releaser => { a with Releaser := v }

/-- The target argument of initComponent: a pointer to a capability field, or a
value that is not a pointer. -/
inductive Target where
  | ptr (s : Slot)
  | notPtr
  deriving DecidableEq, Repr

/-- The loop of initComponent that keys the hooks of an operation by their When
value, in declaration order; reading When through a nil hook pointer panics. -/
def hooksByWhen : List (Option Hook) → List (String × List Hook) →
    Res (List (String × List Hook))
  | [], hooks => Res.ret hooks
  | none :: _, _ => Res.panic "nil pointer dereference"
  | some h :: rest, hooks =>
    hooksByWhen rest (mapSet hooks h.When ((mapGet hooks h.When).getD [] ++ [h]))

/-- The closure initComponent and initMappers register for a plugin instance: it
calls Close of the instance and then returns nil. -/
def closerOf (env : Env) (id : Nat) : Closer :=
  { pinst := id,
    run := match env.InstanceClose id with
      | Res.ret _ => Res.ret none
      | Res.panic msg => Res.panic msg }

/-- The plugin.Instance block shared by initComponent and initMappers: when the
factory handed back a plugin instance, the value is its component, its mappers are
appended to the mappers of the app, and a closer that closes the instance and
returns nil is appended to the closers; any other value is taken as it is. -/
def adoptInstance (env : Env) (a : App) (out : FactoryOut) : Option Value × App :=
  match out with
  | FactoryOut.pinst id comp ms =>
    (comp, { a with mappers := a.mappers ++ ms,
                    closers := a.closers ++ [closerOf env id] })
  | FactoryOut.bare v => (v, a)

/-- Initialise a component with the factory and the configuration and set it on
the field the target points to (App.initComponent). After the target field is set
nothing returns an error any more, but the hook loop and the map store can still
panic. -/
def App.initComponent (env : Env) (a : App) (typ : ComponentType) (target : Target)
    (f : Option Factory) (cfg : Option Operation) (labels : List (String × String)) :
    Res (Option Error) × App :=
  match target with
  | Target.notPtr => (Res.ret (some (Error.errorf "target value should be a pointer")), a)
  | Target.ptr targetV =>
    match cfg with
    | none => (Res.panic "nil pointer dereference", a)
    | some cfg =>
      match cfg.Use with
      | none => (Res.panic "nil pointer dereference", a)
      | some use =>
        match f with
        | none => (Res.panic "nil pointer dereference", a)
        | some f =>
          match f.Func use.Type_ with
          | none =>
            (Res.ret (some (Error.errorf ("unknown type: " ++ env.Quote use.Type_))), a)
          | some fn =>
            match env.dirComponent a.dir typ.String.toLower use.Type_ with
            | Except.error err => (Res.ret (some err), a)
            | Except.ok cdir =>
              match env.FactoryCall fn
                  [TypedVal.ctx, TypedVal.source a.source,
                   TypedVal.logger typ.String.toLower, TypedVal.componentDir (some cdir)] with
              | Except.error err => (Res.ret (some err), a)
              | Except.ok out =>
                let raw := (adoptInstance env a out).1
                let a1 := (adoptInstance env a out).2
                match raw with
                | none => (Res.panic "reflect: call of reflect.Value.Type on zero Value", a1)
                | some rawV =>
                  if !rawV.typ.Implements targetV.Iface then
                    (Res.ret (some (Error.errorf ("component " ++ rawV.typ.name ++
                      " not assigntable to type " ++ targetV.Iface.String))), a1)
                  else
                    let diag := env.Configure raw use.Body
                    if HasErrors diag then
                      (Res.ret (some (Error.diag diag)), a1)
                    else
                      let a2 := a1.setSlot targetV raw
                      match hooksByWhen cfg.Hooks [] with
                      | Res.panic msg => (Res.panic msg, a2)
                      | Res.ret hooks =>
                        let componentMeta : appComponent :=
                          { Info := some { Type_ := typ, Name := use.Type_ },
                            Dir := some cdir, Hooks := hooks, Labels := labels }
                        match mapStore a2.components raw (some componentMeta) with
                        | Res.panic msg => (Res.panic msg, a2)
                        | Res.ret components => (Res.ret none, { a2 with components := components })

/-- The loop of initMappers over the registered names. -/
def initMappersLoop (env : Env) (f : Factory) : List String → App → Res (Option Error) × App
  | [], a => (Res.ret none, a)
  | name :: rest, a =>
    match f.Func name with
    | none => (Res.panic (name ++ " is not a registered plugin, but factory claims it is"), a)
    | some fn =>
      match env.FactoryCall fn [TypedVal.ctx, TypedVal.logger "app"] with
      | Except.error err => (Res.ret (some err), a)
      | Except.ok out => initMappersLoop env f rest (adoptInstance env a out).2

/-- Initialise the plugins that are just mappers (App.initMappers). -/
def App.initMappers (env : Env) (a : App) (f : Factory) : Res (Option Error) × App :=
  initMappersLoop env f f.Registered a

/-- One entry of the component table of newApp: the field, the role and the
configured operation. -/
structure ComponentEntry where
  Target : Slot
  Type_ : ComponentType
  Config : Option Operation
  deriving DecidableEq, Repr

/-- The body of the loading loop of newApp for one entry: skip a component that is
not set, initialise any other. -/
def loadComponent (env : Env) (p : Project) (c : ComponentEntry) (app : App) :
    Res (Option Error) × App :=
  match c.Config with
  | none => (Res.ret none, app)
  | some config =>
    match config.Use with
    | none => (Res.ret none, app)
    | some _ =>
      app.initComponent env c.Type_ (Target.ptr c.Target) (p.factories c.Type_)
        c.Config config.Labels

/-- The loading loop of newApp: stop at the first error. -/
def loadComponents (env : Env) (p : Project) : List ComponentEntry → App → Res (Option Error) × App
  | [], app => (Res.ret none, app)
  | c :: rest, app =>
    match loadComponent env p c app with
    | (Res.ret none, app1) => loadComponents env p rest app1
    | (Res.ret (some err), app1) => (Res.ret (some err), app1)
    | (Res.panic msg, app1) => (Res.panic msg, app1)

/-- The component table of newApp. -/
def componentTable (cfg : ConfigApp) : List ComponentEntry :=
  [ { Target := Slot.Builder, Type_ := ComponentType.BuilderType, Config := cfg.BuildOperation },
    { Target := Slot.Registry, Type_ := ComponentType.RegistryType, Config := cfg.RegistryOperation },
    { Target := Slot.Platform, Type_ := ComponentType.PlatformType, Config := cfg.DeployOperation },
    { Target := Slot.Releaser, Type_ := ComponentType.ReleaseManagerType,
      Config := cfg.ReleaseOperation } ]

/-- The last part of newApp: when no releaser is set and the platform offers a
default releaser, call it and adopt its result under the metadata of the platform
(a map read without the presence flag gives the nil pointer for a missing key). -/
def defaultReleaser (env : Env) (app : App) (w : World) :
    Res (Option App × Option Error) × World :=
  match app.Releaser, app.Platform with
  | none, some platform =>
    if platform.typ.Implements Iface.PlatformReleaser
        && (env.DefaultReleaserFunc platform).isSome then
      match app.callDynamicFunc env "app" (some Iface.ReleaseManager) app.Platform
          (env.DefaultReleaserFunc platform) [] w with
      | (Res.panic msg, w1) => (Res.panic msg, w1)
      | (Res.ret (_, some err), w1) => (Res.ret (none, some err), w1)
      | (Res.ret (raw, none), w1) =>
        match raw with
        | none => (Res.panic "interface conversion: interface is nil", w1)
        | some rawV =>
          if !rawV.typ.Implements Iface.ReleaseManager then
            (Res.panic "interface conversion: missing method", w1)
          else
            let app1 := { app with Releaser := raw }
            match mapIndex app1.components app1.Platform with
            | Res.panic msg => (Res.panic msg, w1)
            | Res.ret info =>
              match mapStore app1.components app1.Releaser info.join with
              | Res.panic msg => (Res.panic msg, w1)
              | Res.ret components =>
                (Res.ret (some { app1 with components := components }, none), w1)
    else
      (Res.ret (some app, none), w)
  | _, _ => (Res.ret (some app, none), w)

/-- The App value newApp starts from, with its data directory set: no component
is bound yet. -/
def initialApp (env : Env) (p : Project) (cfg : ConfigApp) (dir : Dir) : App :=
  { Builder := none, Registry := none, Platform := none, Releaser := none,
    config := some cfg,
    ref := some { Application := cfg.Name, Project := p.name },
    workspace := p.WorkspaceRef,
    source := some { App := cfg.Name,
                     Path := if cfg.Path ≠ "" then env.Join p.root cfg.Path else p.root },
    jobInfo := p.jobInfo,
    dir := some dir,
    mappers := [] ++ p.mappers,
    components := [],
    closers := [] }

/-- Create the App of a project for a configuration and initialise all of its
components (newApp). -/
def newApp (env : Env) (p : Project) (cfg : ConfigApp) (w : World) :
    Res (Option App × Option Error) × World :=
  match env.dirApp cfg.Name with
  | Except.error err => (Res.ret (none, some err), w)
  | Except.ok dir =>
    match loadComponents env p (componentTable cfg) (initialApp env p cfg dir) with
    | (Res.panic msg, _) => (Res.panic msg, w)
    | (Res.ret (some err), _) => (Res.ret (none, some err), w)
    | (Res.ret none, app1) =>
      let mappersInit : Res (Option Error) × App :=
        match p.factories ComponentType.MapperType with
        | some f => app1.initMappers env f
        | none => (Res.ret none, app1)
      match mappersInit with
      | (Res.panic msg, _) => (Res.panic msg, w)
      | (Res.ret (some err), _) => (Res.ret (none, some err), w)
      | (Res.ret none, app2) => defaultReleaser env app2 w

/-! ## The plugin instances a binding loads -/

/-- The plugin instances a factory output carries: the instance itself, and none
for any other value. -/
def FactoryOut.instances : FactoryOut → List Nat
  | FactoryOut.pinst id _ _ => [id]
  | FactoryOut.bare _ => []

/-- The plugin instances one run of initComponent loads: those of the output of
the factory call, when the run reaches the call and the call succeeds. -/
def initComponentInstances (env : Env) (a : App) (typ : ComponentType) (target : Target)
    (f : Option Factory) (cfg : Option Operation) : List Nat :=
  match target, cfg, f with
  | Target.ptr _, some cfg, some fac =>
    match cfg.Use with
    | none => []
    | some use =>
      match fac.Func use.Type_ with
      | none => []
      | some fn =>
        match env.dirComponent a.dir typ.String.toLower use.Type_ with
        | Except.error _ => []
        | Except.ok cdir =>
          match env.FactoryCall fn
              [TypedVal.ctx, TypedVal.source a.source,
               TypedVal.logger typ.String.toLower, TypedVal.componentDir (some cdir)] with
          | Except.error _ => []
          | Except.ok out => out.instances
  | _, _, _ => []

/-- The plugin instances the loop of initMappers loads, in loading order: those of
every factory output up to the first name that fails. -/
def mapperInstances (env : Env) (f : Factory) : List String → List Nat
  | [] => []
  | name :: rest =>
    match f.Func name with
    | none => []
    | some fn =>
      match env.FactoryCall fn [TypedVal.ctx, TypedVal.logger "app"] with
      | Except.error _ => []
      | Except.ok out => out.instances ++ mapperInstances env f rest

/-- The plugin instances one step of the loading loop of newApp loads. -/
def loadComponentInstances (env : Env) (p : Project) (c : ComponentEntry) (app : App) :
    List Nat :=
  match c.Config with
  | none => []
  | some config =>
    match config.Use with
    | none => []
    | some _ =>
      initComponentInstances env app c.Type_ (Target.ptr c.Target) (p.factories c.Type_) c.Config

/-- The plugin instances the loading loop of newApp loads, in loading order. -/
def loadComponentsInstances (env : Env) (p : Project) : List ComponentEntry → App → List Nat
  | [], _ => []
  | c :: rest, app =>
    loadComponentInstances env p c app ++
      match loadComponent env p c app with
      | (Res.ret none, app1) => loadComponentsInstances env p rest app1
      | _ => []

/-- The plugin instances a run of newApp loads, in loading order: those of the
components, then those of the mapper plugins. -/
def newAppInstances (env : Env) (p : Project) (cfg : ConfigApp) : List Nat :=
  match env.dirApp cfg.Name with
  | Except.error _ => []
  | Except.ok dir =>
    loadComponentsInstances env p (componentTable cfg) (initialApp env p cfg dir) ++
      match loadComponents env p (componentTable cfg) (initialApp env p cfg dir) with
      | (Res.ret none, _) =>
        match p.factories ComponentType.MapperType with
        | some f => mapperInstances env f f.Registered
        | none => []
      | _ => []

/-! ## Predicates used in the statements -/

/-- The world after a dynamic call that reached the target: the call, then the
deferred close of the status scope. -/
def worldAfterCall (w : World) (rawFunc : Func) (args : List Arg) : World :=
  { statusOpen := false,
    trace := w.trace ++ [Event.call rawFunc args, Event.statusClose] }

/-- The keys of the metadata map are exactly the non-nil values of the four
capability fields. -/
def keysAreSlots (a : App) : Prop :=
  ∀ k : Option Value, k ∈ a.Components ↔ (k ≠ none ∧ ∃ s, a.slot s = k)

/-- Whether the entry has a component set: an operation with a use stanza. -/
def ComponentEntry.isSet (c : ComponentEntry) : Bool :=
  match c.Config with
  | none => false
  | some op => op.Use.isSome

/-- The test of the loading loop for a component that is not set: the operation is
nil or its use stanza is nil. -/
def notConfigured (config : Option Operation) : Prop :=
  config = none ∨ ∃ op, config = some op ∧ op.Use = none

/-! ## Sample collaborators for concrete runs -/

/-- A builder value that implements the Builder capability. -/
def sampleBuilder : Value :=
  { id := 1, typ := { name := "*docker.Builder", impls := [Iface.Builder], hashable := true } }

/-- A platform value that is also a PlatformReleaser. -/
def samplePlatform : Value :=
  { id := 3,
    typ := { name := "*k8s.Platform", impls := [Iface.Platform, Iface.PlatformReleaser],
             hashable := true } }

/-- A release manager value. -/
def sampleReleaser : Value :=
  { id := 4,
    typ := { name := "*k8s.Releaser", impls := [Iface.ReleaseManager], hashable := true } }

/-- A platform value of a struct type that holds a slice: it implements Platform
but cannot be a map key. -/
def sliceValue : Value :=
  { id := 6,
    typ := { name := "lambda.Platform", impls := [Iface.Platform], hashable := false } }

/-- A build record. -/
def sampleBuild : Build :=
  { Application := some { Application := "web", Project := "shop" },
    Workspace := some { Workspace := "default" },
    Component := some { Type_ := ComponentType.BuilderType, Name := "docker" },
    Status := some { id := 7 }, Artifact := some { Artifact := some 9 } }

/-- A factory that knows the type names docker, k8s, helm and lambda. -/
def sampleFactory : Factory :=
  { Registered := ["docker", "k8s", "helm", "lambda"],
    Func := fun name =>
      if name = "docker" then some { id := 10 }
      else if name = "k8s" then some { id := 11 }
      else if name = "helm" then some { id := 12 }
      else if name = "lambda" then some { id := 13 } else none }

/-- Sample collaborators: the build operation yields sampleBuild, the push yields
artifact 5, argmapper.NewFunc refuses the value 99 and wraps any other, function 20
(the default releaser of the platform) returns sampleReleaser, function 21 returns
sampleBuilder and leaves a status scope open, and Close of plugin instance 101
panics. -/
def sampleEnv : Env :=
  { doOperation := fun _ => (some (Message.build (some sampleBuild)), none),
    PushBuild := fun _ _ => (some { id := 5 }, none),
    NewFunc := fun id =>
      if id = 99 then Except.error (Error.ext "fn should be a function")
      else Except.ok { id := id },
    Call := fun f _ =>
      if f.id = 20 then { Err := none, Out := [some sampleReleaser], leavesStatusOpen := false }
      else if f.id = 21 then { Err := none, Out := [some sampleBuilder], leavesStatusOpen := true }
      else { Err := some (Error.ext "call failed"), Out := [], leavesStatusOpen := true },
    FactoryCall := fun fn _ =>
      if fn.id = 10 then Except.ok (FactoryOut.pinst 100 (some sampleBuilder) [{ id := 30 }])
      else if fn.id = 11 then Except.ok (FactoryOut.bare (some samplePlatform))
      else if fn.id = 12 then Except.ok (FactoryOut.bare (some sampleReleaser))
      else if fn.id = 13 then Except.ok (FactoryOut.bare (some sliceValue))
      else Except.error (Error.ext "factory failed"),
    dirApp := fun name => Except.ok { path := name },
    dirComponent := fun _ _ name => Except.ok { path := name },
    Configure := fun _ _ => [],
    DefaultReleaserFunc := fun v => if v.id = 3 then some (FuncRef.other 20) else none,
    Join := fun a b => a ++ "/" ++ b,
    Quote := fun s => "\"" ++ s ++ "\"",
    InstanceClose := fun id => if id = 101 then Res.panic "plugin died" else Res.ret () }

/-- An App with no component bound. -/
def emptyApp : App :=
  { Builder := none, Registry := none, Platform := none, Releaser := none,
    config := none, ref := some { Application := "web", Project := "shop" },
    workspace := some { Workspace := "default" }, source := none, jobInfo := none,
    dir := some { path := "web" }, mappers := [], components := [], closers := [] }

/-- The metadata stored for sampleBuilder. -/
def sampleMeta : appComponent :=
  { Info := some { Type_ := ComponentType.BuilderType, Name := "docker" },
    Dir := some { path := "docker" }, Labels := [("env", "dev")], Hooks := [] }

/-- An App whose builder is bound. -/
def builderApp : App :=
  { emptyApp with Builder := some sampleBuilder,
                  components := [(some sampleBuilder, some sampleMeta)] }

/-- A project whose builder, platform and release manager factories are sampleFactory. -/
def sampleProject : Project :=
  { name := "shop", root := "/src", jobInfo := none, mappers := [{ id := 40 }],
    WorkspaceRef := some { Workspace := "default" },
    factories := fun typ =>
      match typ with
      | ComponentType.BuilderType => some sampleFactory
      | ComponentType.PlatformType => some sampleFactory
      | ComponentType.ReleaseManagerType => some sampleFactory
      | _ => none }

/-- A configuration with a docker builder and a k8s platform, and neither a
registry nor a release manager. -/
def sampleConfig : ConfigApp :=
  { Name := "web", Path := "", Labels := [],
    BuildOperation :=
      some { Use := some { Type_ := "docker", Body := 0 }, Hooks := [],
             Labels := [("env", "dev")] },
    RegistryOperation := none,
    DeployOperation := some { Use := some { Type_ := "k8s", Body := 0 }, Hooks := [], Labels := [] },
    ReleaseOperation := none }

/-- The same configuration with a helm release manager set. -/
def releaseConfig : ConfigApp :=
  { sampleConfig with
    ReleaseOperation :=
      some { Use := some { Type_ := "helm", Body := 0 }, Hooks := [], Labels := [] } }

/-- The metadata stored for samplePlatform. -/
def samplePlatformMeta : appComponent :=
  { Info := some { Type_ := ComponentType.PlatformType, Name := "k8s" },
    Dir := some { path := "k8s" }, Labels := [], Hooks := [] }

/-- The App newApp builds from sampleProject and sampleConfig under sampleEnv: the
releaser is the value the default releaser function of the platform returned, and
it is stored under the metadata of the platform. -/
def sampleApp : App :=
  { Builder := some sampleBuilder, Registry := none, Platform := some samplePlatform,
    Releaser := some sampleReleaser,
    config := some sampleConfig, ref := some { Application := "web", Project := "shop" },
    workspace := some { Workspace := "default" },
    source := some { App := "web", Path := "/src" }, jobInfo := none,
    dir := some { path := "web" }, mappers := [{ id := 40 }, { id := 30 }],
    components :=
      [(some sampleReleaser, some samplePlatformMeta),
       (some samplePlatform, some samplePlatformMeta),
       (some sampleBuilder, some sampleMeta)],
    closers := [{ pinst := 100, run := Res.ret none }] }

/-- The world after that run of newApp: one call of function 20, then the close of
the status scope. -/
def sampleWorld : World :=
  { statusOpen := false,
    trace := [Event.call { id := 20 }
                (dynamicArgs sampleApp "app" samplePlatformMeta []), Event.statusClose] }

/-- An App with two closers: the first returns an error, the second returns nil. -/
def closersApp : App :=
  { emptyApp with
    closers := [{ pinst := 102, run := Res.ret (some (Error.ext "close failed")) },
                { pinst := 100, run := Res.ret none }] }

/-- An App whose first closer panics: the closers of plugin instances 101 and 100
as initComponent registers them under sampleEnv. -/
def panickingApp : App :=
  { emptyApp with closers := [closerOf sampleEnv 101, closerOf sampleEnv 100] }

/-- A world with a closed status scope and no calls yet. -/
def world0 : World :=
  { statusOpen := false, trace := [] }

/-! ## The build stage -/

theorem applyBuildOptions_append (pre : List BuildOption) (f : BuildOption) :
    ∀ (d o : buildOptions), applyBuildOptions d pre = (some o, none) →
      applyBuildOptions d (pre ++ [f]) = applyBuildOptions o [f] := by
  induction pre with
  | nil =>
    intro d o h
    simp [applyBuildOptions, buildOptions.Validate] at h
    simp [h]
  | cons g rest ih =>
    intro d o h
    simp only [applyBuildOptions, List.cons_append] at h ⊢
    rcases hg : g d with ⟨d1, _ | err⟩
    · rw [hg] at h
      simp only at h ⊢
      exact ih d1 o h
    · rw [hg] at h
      simp at h

theorem newBuildOptions_append_BuildWithPush (pre : List BuildOption) (o : buildOptions)
    (v : Bool) (h : newBuildOptions pre = (some o, none)) :
    newBuildOptions (pre ++ [BuildWithPush v]) = (some { Push := v }, none) := by
  unfold newBuildOptions at h ⊢
  rw [applyBuildOptions_append pre _ _ o h]
  simp [applyBuildOptions, BuildWithPush, buildOptions.Validate]

theorem Build_of_options (env : Env) (a : App) (optFuncs : List BuildOption) (w : World)
    (o : buildOptions) (h : newBuildOptions optFuncs = (some o, none)) :
    a.Build env optFuncs w =
      match env.doOperation a with
      | (_, some err) => (Res.ret (none, none, some err), w.log Event.doOperationBuild)
      | (none, none) =>
        (Res.panic "interface conversion: interface is nil", w.log Event.doOperationBuild)
      | (some (Message.other _), none) =>
        (Res.panic "interface conversion: not *pb.Build", w.log Event.doOperationBuild)
      | (some (Message.build build), none) =>
        if !o.Push then
          (Res.ret (build, none, none), w.log Event.doOperationBuild)
        else
          (Res.ret (build, (env.PushBuild a [PushOption.PushWithBuild build]).1,
                    (env.PushBuild a [PushOption.PushWithBuild build]).2),
           (w.log Event.doOperationBuild).log (Event.PushBuild [PushOption.PushWithBuild build])) := by
  unfold App.Build
  rw [h]

/-- C1: when BuildWithPush(false) is the last option applied (after any options that
raise no error) and the build operation succeeds with record b, Build returns
(b, nil, nil), the only call it makes is the build operation, and no PushBuild call
is among the calls it adds to the trace. -/
theorem Build_push_disabled (env : Env) (a : App) (pre : List BuildOption) (o : buildOptions)
    (w : World) (b : Option Build)
    (hpre : newBuildOptions pre = (some o, none))
    (hop : env.doOperation a = (some (Message.build b), none)) :
    a.Build env (pre ++ [BuildWithPush false]) w
        = (Res.ret (b, none, none), w.log Event.doOperationBuild)
      ∧ (a.Build env (pre ++ [BuildWithPush false]) w).2.trace
        = w.trace ++ [Event.doOperationBuild]
      ∧ ∀ opts, Event.PushBuild opts ∉
          (a.Build env (pre ++ [BuildWithPush false]) w).2.trace.drop w.trace.length := by
  have h := Build_of_options env a _ w _ (newBuildOptions_append_BuildWithPush pre o false hpre)
  rw [hop] at h
  simp only [Bool.not_false, if_true] at h
  rw [h]
  refine ⟨rfl, rfl, ?_⟩
  intro opts
  simp [World.log]

/-- Witness of C1: two options, the last one disabling push. -/
theorem Build_push_disabled_witness :
    builderApp.Build sampleEnv ([BuildWithPush true] ++ [BuildWithPush false]) world0
        = (Res.ret (some sampleBuild, none, none), world0.log Event.doOperationBuild)
      ∧ (builderApp.Build sampleEnv ([BuildWithPush true] ++ [BuildWithPush false]) world0).2.trace
        = world0.trace ++ [Event.doOperationBuild]
      ∧ ∀ opts, Event.PushBuild opts ∉
          (builderApp.Build sampleEnv ([BuildWithPush true] ++ [BuildWithPush false])
            world0).2.trace.drop world0.trace.length :=
  Build_push_disabled sampleEnv builderApp [BuildWithPush true] { Push := true } world0
    (some sampleBuild) rfl rfl

/-- C2: when the options leave push enabled (no options at all, or options that
raise no error and end with Push set) and the build operation succeeds with record
b, Build calls PushBuild exactly once, with PushWithBuild(b), after the build
operation, and returns b with exactly the artifact and the error of PushBuild (so
a push failure comes back next to the build record); when the build operation
fails, Build returns (nil, nil, that error) and adds no PushBuild call. -/
theorem Build_push_enabled (env : Env) (a : App) (optFuncs : List BuildOption) (w : World)
    (hopts : optFuncs = [] ∨
      ∃ o, newBuildOptions optFuncs = (some o, none) ∧ o.Push = true) :
    (∀ b, env.doOperation a = (some (Message.build b), none) →
        a.Build env optFuncs w
          = (Res.ret (b, (env.PushBuild a [PushOption.PushWithBuild b]).1,
                         (env.PushBuild a [PushOption.PushWithBuild b]).2),
             (w.log Event.doOperationBuild).log (Event.PushBuild [PushOption.PushWithBuild b]))
        ∧ (a.Build env optFuncs w).2.trace
          = w.trace ++ [Event.doOperationBuild, Event.PushBuild [PushOption.PushWithBuild b]])
    ∧ (∀ m err, env.doOperation a = (m, some err) →
        a.Build env optFuncs w
          = (Res.ret (none, none, some err), w.log Event.doOperationBuild)
        ∧ ∀ opts, Event.PushBuild opts ∉ (a.Build env optFuncs w).2.trace.drop w.trace.length) := by
  have hnew : ∃ o, newBuildOptions optFuncs = (some o, none) ∧ o.Push = true := by
    rcases hopts with h | h
    · subst h
      exact ⟨defaultBuildOptions, rfl, rfl⟩
    · exact h
  obtain ⟨o, ho, hpush⟩ := hnew
  have h := Build_of_options env a optFuncs w o ho
  constructor
  · intro b hop
    rw [hop] at h
    simp only [hpush, Bool.not_true] at h
    rw [h]
    refine ⟨rfl, ?_⟩
    simp [World.log]
  · intro m err hop
    rw [hop] at h
    simp only at h
    rw [h]
    refine ⟨rfl, ?_⟩
    intro opts
    simp [World.log]

/-- Witness of C2: a call with no options on collaborators whose build and push
both succeed. -/
theorem Build_push_enabled_witness :
    builderApp.Build sampleEnv [] world0
      = (Res.ret (some sampleBuild, some { id := 5 }, none),
         { statusOpen := false,
           trace := [Event.doOperationBuild,
                     Event.PushBuild [PushOption.PushWithBuild (some sampleBuild)]] }) :=
  ((Build_push_enabled sampleEnv builderApp [] world0 (Or.inl rfl)).1
    (some sampleBuild) rfl).1

/-! ## The first step of the build operation -/

theorem mapIndex_eq_ret_iff {ν : Type} (m : List (Option Value × ν)) (key : Option Value)
    (r : Option ν) :
    mapIndex m key = Res.ret r ↔ (keyHashable key = true ∧ mapGet m key = r) := by
  unfold mapIndex
  by_cases h : keyHashable key = true <;> simp [h]

/-- C3: Init returns no record and the NotFound-coded error "no builder configured"
exactly when the lookup of the value of the Builder field in the metadata map
finds no entry; when it finds the entry builder, Init returns with no error the
record whose Application is the ref of the App, whose Workspace is its workspace
ref, whose Component is builder.Info, and whose Status and Artifact are unset. -/
theorem buildOperation_Init_spec (app : App) :
    (buildOperation.Init app
        = Res.ret (none, some (Error.status Code.NotFound "no builder configured"))
      ↔ mapIndex app.components app.Builder = Res.ret none)
    ∧ ((∃ r err, buildOperation.Init app = Res.ret (r, some err))
      ↔ mapIndex app.components app.Builder = Res.ret none)
    ∧ ∀ builder, mapIndex app.components app.Builder = Res.ret (some (some builder)) →
        buildOperation.Init app
          = Res.ret (some { Application := app.ref, Workspace := app.workspace,
                            Component := builder.Info, Status := none, Artifact := none },
                     none) := by
  unfold buildOperation.Init
  rcases h : mapIndex app.components app.Builder with (_ | _ | builder) | msg <;> simp

/-- Witness of C3: an App with a bound builder. -/
theorem buildOperation_Init_spec_witness :
    buildOperation.Init builderApp
      = Res.ret (some { Application := some { Application := "web", Project := "shop" },
                        Workspace := some { Workspace := "default" },
                        Component := some { Type_ := ComponentType.BuilderType, Name := "docker" },
                        Status := none, Artifact := none },
                 none) :=
  (buildOperation_Init_spec builderApp).2.2 sampleMeta (by decide)

/-! ## Dynamic invocation -/

theorem callDynamicFunc_world_of_bound (env : Env) (a : App) (log : String)
    (result : Option Iface) (c : Option Value) (f : Option FuncRef) (args : List Arg)
    (w : World) (rawFunc : Func) (componentData : appComponent)
    (hf : rawFuncOf env f = Res.ret (Except.ok rawFunc))
    (hc : mapIndex a.components c = Res.ret (some (some componentData))) :
    (a.callDynamicFunc env log result c f args w).2
      = worldAfterCall w rawFunc (dynamicArgs a log componentData args) := by
  unfold App.callDynamicFunc
  rw [hf]
  simp only [hc]
  rcases env.Call rawFunc (dynamicArgs a log componentData args)
    with ⟨_ | err, _ | ⟨_ | rawV, rest⟩, so⟩ <;>
    rcases result with _ | interfaceType <;>
    simp [World.closeStatus, worldAfterCall]
  split <;> simp [worldAfterCall]

/-- C5: on a bound component, with a function reference that is accepted and the
expected capability interfaceType, when the call returns with no error the value
rawV: if the type of rawV does not implement interfaceType the result is nil with
the FailedPrecondition-coded error "operation expected result type I, got T"
(I the interface, T the concrete type); if it does, rawV comes back unchanged with
a nil error; either way the target was called exactly once, before the status
scope was closed. -/
theorem callDynamicFunc_checks_result (env : Env) (a : App) (log : String)
    (interfaceType : Iface) (c : Option Value) (f : Option FuncRef) (args : List Arg)
    (w : World) (rawFunc : Func) (componentData : appComponent) (rawV : Value)
    (hf : rawFuncOf env f = Res.ret (Except.ok rawFunc))
    (hc : mapIndex a.components c = Res.ret (some (some componentData)))
    (herr : (env.Call rawFunc (dynamicArgs a log componentData args)).Err = none)
    (hout : (env.Call rawFunc (dynamicArgs a log componentData args)).Out.head?
      = some (some rawV)) :
    (rawV.typ.Implements interfaceType = false →
        (a.callDynamicFunc env log (some interfaceType) c f args w).1
          = Res.ret (none, some (Error.status Code.FailedPrecondition
              ("operation expected result type " ++ interfaceType.String ++
               ", got " ++ rawV.typ.name))))
    ∧ (rawV.typ.Implements interfaceType = true →
        (a.callDynamicFunc env log (some interfaceType) c f args w).1
          = Res.ret (some rawV, none))
    ∧ (a.callDynamicFunc env log (some interfaceType) c f args w).2.trace
        = w.trace ++ [Event.call rawFunc (dynamicArgs a log componentData args),
                      Event.statusClose]
    ∧ ((a.callDynamicFunc env log (some interfaceType) c f args w).2.trace.drop
          w.trace.length).countP
        Event.isCall = 1 := by
  have hw := callDynamicFunc_world_of_bound env a log (some interfaceType) c f args w
    rawFunc componentData hf hc
  have hcons : ∃ rest, (env.Call rawFunc (dynamicArgs a log componentData args)).Out
      = some rawV :: rest := by
    rcases h : (env.Call rawFunc (dynamicArgs a log componentData args)).Out with _ | ⟨x, rest⟩
    · rw [h] at hout
      simp at hout
    · rw [h] at hout
      simp only [List.head?_cons, Option.some.injEq] at hout
      exact ⟨rest, by rw [hout]⟩
  obtain ⟨rest, hcons⟩ := hcons
  refine ⟨?_, ?_, ?_, ?_⟩
  · intro himp
    unfold App.callDynamicFunc
    rw [hf]
    simp [hc, herr, hcons, himp]
  · intro himp
    unfold App.callDynamicFunc
    rw [hf]
    simp [hc, herr, hcons, himp]
  · rw [hw]
    rfl
  · rw [hw]
    simp [worldAfterCall, List.countP_cons, Event.isCall]

/-- Witness of C5: the builder is bound, function 21 returns a builder value, and
the expected capability is Artifact, which the builder type does not implement. -/
theorem callDynamicFunc_checks_result_witness :
    (builderApp.callDynamicFunc sampleEnv "build" (some Iface.Artifact) (some sampleBuilder)
        (some (FuncRef.other 21)) [] world0).1
      = Res.ret (none, some (Error.status Code.FailedPrecondition
          "operation expected result type component.Artifact, got *docker.Builder")) :=
  (callDynamicFunc_checks_result sampleEnv builderApp "build" Iface.Artifact
    (some sampleBuilder) (some (FuncRef.other 21)) [] world0 { id := 21 } sampleMeta
    sampleBuilder rfl (by decide) rfl rfl).1 (by decide)

/-- C6 as stated fails: with an unbound component and a function reference that
argmapper.NewFunc refuses, the call returns the error of argmapper.NewFunc, not a
not-found error; and with an accepted function reference the error is the plain
fmt.Errorf error "component dir not found for: T", which carries no NotFound
code. -/
theorem callDynamicFunc_unbound_counterexample :
    mapIndex emptyApp.components (some sampleBuilder) = Res.ret none
    ∧ emptyApp.callDynamicFunc sampleEnv "build" (some Iface.Artifact) (some sampleBuilder)
        (some (FuncRef.other 99)) [] world0
      = (Res.ret (none, some (Error.ext "fn should be a function")), world0)
    ∧ emptyApp.callDynamicFunc sampleEnv "build" (some Iface.Artifact) (some sampleBuilder)
        (some (FuncRef.other 21)) [] world0
      = (Res.ret (none, some (Error.errorf "component dir not found for: *docker.Builder")),
         world0)
    ∧ ∀ (f : Option FuncRef) (msg : String),
        (f = some (FuncRef.other 99) ∨ f = some (FuncRef.other 21)) →
        (emptyApp.callDynamicFunc sampleEnv "build" (some Iface.Artifact) (some sampleBuilder)
          f [] world0).1 ≠ Res.ret (none, some (Error.status Code.NotFound msg)) := by
  refine ⟨by decide, by decide, by decide, ?_⟩
  intro f msg hf
  rcases hf with h | h <;> subst h <;>
    simp [App.callDynamicFunc, rawFuncOf, sampleEnv, emptyApp, mapIndex, mapGet, keyHashable,
      sampleBuilder]

/-- C6 amended: whenever the lookup of the component in the metadata map finds no
entry, the call leaves the world as it was, so the target is never called (and
nothing is closed). When the function reference is not nil and the lookup reports
no entry, the call returns no result and an error: the plain error
"component dir not found for: T", T the dynamic type of the component, when the
function reference is accepted, and the error of argmapper.NewFunc when it is
refused. -/
theorem callDynamicFunc_unbound (env : Env) (a : App) (log : String) (result : Option Iface)
    (c : Option Value) (f : Option FuncRef) (args : List Arg) (w : World) :
    ((∀ componentData, mapIndex a.components c ≠ Res.ret (some componentData)) →
        (a.callDynamicFunc env log result c f args w).2 = w
        ∧ ∀ g xs, Event.call g xs ∉
            (a.callDynamicFunc env log result c f args w).2.trace.drop w.trace.length)
    ∧ (mapIndex a.components c = Res.ret none →
        (∀ rawFunc, rawFuncOf env f = Res.ret (Except.ok rawFunc) →
          (a.callDynamicFunc env log result c f args w).1
            = Res.ret (none,
                some (Error.errorf ("component dir not found for: " ++ typeName c))))
        ∧ (∀ err, rawFuncOf env f = Res.ret (Except.error err) →
          (a.callDynamicFunc env log result c f args w).1 = Res.ret (none, some err))
        ∧ (f ≠ none →
          ∃ err, (a.callDynamicFunc env log result c f args w).1 = Res.ret (none, some err))) := by
  constructor
  · intro hc
    have hw : (a.callDynamicFunc env log result c f args w).2 = w := by
      unfold App.callDynamicFunc
      rcases hf : rawFuncOf env f with (err | rawFunc) | msg
      · rfl
      · rcases hidx : mapIndex a.components c with (_ | componentData) | msg
        · rfl
        · exact absurd hidx (hc componentData)
        · rfl
      · rfl
    refine ⟨hw, ?_⟩
    intro g xs
    rw [hw]
    simp
  · intro hc
    refine ⟨?_, ?_, ?_⟩
    · intro rawFunc hf
      unfold App.callDynamicFunc
      rw [hf]
      simp [hc]
    · intro err hf
      unfold App.callDynamicFunc
      rw [hf]
    · intro hne
      unfold App.callDynamicFunc
      rcases f with _ | f
      · exact absurd rfl hne
      · cases f with
        | mapperFunc fn => simp [rawFuncOf, hc]
        | other id =>
          rcases hn : env.NewFunc id with err | rawFunc <;> simp [rawFuncOf, hn, hc]

/-- Witness of C6 amended: an accepted function reference and an unbound builder. -/
theorem callDynamicFunc_unbound_witness :
    (emptyApp.callDynamicFunc sampleEnv "build" (some Iface.Artifact) (some sampleBuilder)
        (some (FuncRef.other 21)) [] world0).1
      = Res.ret (none, some (Error.errorf "component dir not found for: *docker.Builder")) :=
  ((callDynamicFunc_unbound sampleEnv emptyApp "build" (some Iface.Artifact)
    (some sampleBuilder) (some (FuncRef.other 21)) [] world0).2 (by decide)).1 { id := 21 } rfl

/-- C7 as stated fails: a status scope is open, the component is unbound, and the
call returns with the scope still open and without any close of the status scope;
the same holds when the component is bound and argmapper.NewFunc refuses the
function reference. -/
theorem callDynamicFunc_status_counterexample :
    (emptyApp.callDynamicFunc sampleEnv "build" (some Iface.Artifact) (some sampleBuilder)
        (some (FuncRef.other 21)) [] { statusOpen := true, trace := [] })
      = (Res.ret (none, some (Error.errorf "component dir not found for: *docker.Builder")),
         { statusOpen := true, trace := [] })
    ∧ (builderApp.callDynamicFunc sampleEnv "build" (some Iface.Artifact) (some sampleBuilder)
        (some (FuncRef.other 99)) [] { statusOpen := true, trace := [] })
      = (Res.ret (none, some (Error.ext "fn should be a function")),
         { statusOpen := true, trace := [] })
    ∧ Event.statusClose ∉
        (emptyApp.callDynamicFunc sampleEnv "build" (some Iface.Artifact) (some sampleBuilder)
          (some (FuncRef.other 21)) [] { statusOpen := true, trace := [] }).2.trace
    ∧ Event.statusClose ∉
        (builderApp.callDynamicFunc sampleEnv "build" (some Iface.Artifact) (some sampleBuilder)
          (some (FuncRef.other 99)) [] { statusOpen := true, trace := [] }).2.trace := by
  refine ⟨by decide, by decide, by decide, by decide⟩

/-- C7 amended: once the function reference is accepted and the component has an
entry, on every way out (result, error of the call such as an error of the
function or a failed argument resolution, result type mismatch, and the panics)
the status scope has been closed before callDynamicFunc is left: a close of the
scope is among the calls it made and the scope is closed in the final world. On
the two early returns (function reference refused, component unbound) the world is
left as it was, so nothing is closed. -/
theorem callDynamicFunc_closes_status (env : Env) (a : App) (log : String)
    (result : Option Iface) (c : Option Value) (f : Option FuncRef) (args : List Arg)
    (w : World) :
    (∀ rawFunc componentData, rawFuncOf env f = Res.ret (Except.ok rawFunc) →
        mapIndex a.components c = Res.ret (some componentData) →
        (a.callDynamicFunc env log result c f args w).2.statusOpen = false
        ∧ Event.statusClose ∈
            (a.callDynamicFunc env log result c f args w).2.trace.drop w.trace.length)
    ∧ ((∃ err, rawFuncOf env f = Res.ret (Except.error err))
        ∨ mapIndex a.components c = Res.ret none →
        (a.callDynamicFunc env log result c f args w).2 = w) := by
  constructor
  · intro rawFunc componentData hf hc
    rcases componentData with _ | componentData
    · unfold App.callDynamicFunc
      rw [hf]
      simp [hc, World.closeStatus]
    · rw [callDynamicFunc_world_of_bound env a log result c f args w rawFunc componentData hf hc]
      simp [worldAfterCall]
  · intro h
    unfold App.callDynamicFunc
    rcases h with ⟨err, h⟩ | h
    · rw [h]
    · rcases hf : rawFuncOf env f with (err | rawFunc) | msg <;> simp [h]

/-- Witness of C7 amended: the builder is bound, function 21 leaves a status scope
open, and the scope is closed when callDynamicFunc returns. -/
theorem callDynamicFunc_closes_status_witness :
    (builderApp.callDynamicFunc sampleEnv "build" (some Iface.Artifact) (some sampleBuilder)
        (some (FuncRef.other 21)) [] world0).2.statusOpen = false :=
  ((callDynamicFunc_closes_status sampleEnv builderApp "build" (some Iface.Artifact)
    (some sampleBuilder) (some (FuncRef.other 21)) [] world0).1 { id := 21 } (some sampleMeta)
    rfl (by decide)).1

/-! ## Binding one component -/

theorem adoptInstance_slot (env : Env) (a : App) (out : FactoryOut) (s : Slot) :
    (adoptInstance env a out).2.slot s = a.slot s := by
  cases out <;> cases s <;> rfl

theorem adoptInstance_components (env : Env) (a : App) (out : FactoryOut) :
    (adoptInstance env a out).2.components = a.components := by
  cases out <;> rfl

theorem adoptInstance_closers (env : Env) (a : App) (out : FactoryOut) :
    (adoptInstance env a out).2.closers
      = a.closers ++ out.instances.map (closerOf env) := by
  cases out <;> simp [adoptInstance, FactoryOut.instances]

theorem setSlot_slot (a : App) (t s : Slot) (v : Option Value) :
    (a.setSlot t v).slot s = if s = t then v else a.slot s := by
  cases t <;> cases s <;> simp [App.setSlot, App.slot]

theorem setSlot_components (a : App) (t : Slot) (v : Option Value) :
    (a.setSlot t v).components = a.components := by
  cases t <;> rfl

theorem setSlot_closers (a : App) (t : Slot) (v : Option Value) :
    (a.setSlot t v).closers = a.closers := by
  cases t <;> rfl

/-- Every run of initComponent ends in one of three ways: it does not return nil
and leaves the fields and the metadata map as they were; or it returns nil after
setting the target field to a value of the right capability and storing metadata
under that value; or it panics after the target field was set and before the
metadata was stored. -/
theorem initComponent_cases (env : Env) (a : App) (typ : ComponentType)
    (target : Target) (f : Option Factory) (cfg : Option Operation)
    (labels : List (String × String)) :
    ((a.initComponent env typ target f cfg labels).1 ≠ Res.ret none
      ∧ (∀ s, (a.initComponent env typ target f cfg labels).2.slot s = a.slot s)
      ∧ (a.initComponent env typ target f cfg labels).2.components = a.components)
    ∨ ((a.initComponent env typ target f cfg labels).1 = Res.ret none
      ∧ ∃ t rawV m, target = Target.ptr t
        ∧ rawV.typ.Implements t.Iface = true
        ∧ rawV.typ.hashable = true
        ∧ (∀ s, (a.initComponent env typ target f cfg labels).2.slot s
            = if s = t then some rawV else a.slot s)
        ∧ (a.initComponent env typ target f cfg labels).2.components
            = mapSet a.components (some rawV) (some m))
    ∨ ((∃ msg, (a.initComponent env typ target f cfg labels).1 = Res.panic msg)
      ∧ ∃ t rawV, target = Target.ptr t
        ∧ (∀ s, (a.initComponent env typ target f cfg labels).2.slot s
            = if s = t then some rawV else a.slot s)
        ∧ (a.initComponent env typ target f cfg labels).2.components = a.components) := by
  unfold App.initComponent
  cases target with
  | notPtr => left; simp
  | ptr targetV =>
    cases cfg with
    | none => left; simp
    | some cfg1 =>
      rcases hu : cfg1.Use with _ | use
      · left; simp [hu]
      · cases f with
        | none => left; simp [hu]
        | some fac =>
          rcases hfn : fac.Func use.Type_ with _ | fn
          · left; simp [hu, hfn]
          · rcases hdir : env.dirComponent a.dir typ.String.toLower use.Type_ with err | cdir
            · left; simp [hu, hfn, hdir]
            · rcases hcall : env.FactoryCall fn
                  [TypedVal.ctx, TypedVal.source a.source,
                   TypedVal.logger typ.String.toLower, TypedVal.componentDir (some cdir)]
                with err | out
              · left; simp [hu, hfn, hdir, hcall]
              · simp only [hu, hfn, hdir, hcall]
                rcases hraw : (adoptInstance env a out).1 with _ | rawV
                · left
                  simp [adoptInstance_slot, adoptInstance_components]
                · by_cases himp : rawV.typ.Implements targetV.Iface = true
                  · by_cases hd : HasErrors (env.Configure (some rawV) use.Body) = true
                    · left
                      simp [himp, hd, adoptInstance_slot, adoptInstance_components]
                    · right
                      simp only [himp, hd, Bool.not_true, Bool.false_eq_true, if_false]
                      have hslot : ∀ s, ((adoptInstance env a out).2.setSlot targetV
                          (some rawV)).slot s = if s = targetV then some rawV else a.slot s := by
                        intro s
                        rw [setSlot_slot, adoptInstance_slot]
                      have hcomp : ((adoptInstance env a out).2.setSlot targetV
                          (some rawV)).components = a.components := by
                        rw [setSlot_components, adoptInstance_components]
                      rcases hh : hooksByWhen cfg1.Hooks [] with hooks | msg
                      · by_cases hk : rawV.typ.hashable = true
                        · left
                          simp only [mapStore, keyHashable, hk, if_true]
                          refine ⟨trivial, targetV, rawV,
                            { Info := some { Type_ := typ, Name := use.Type_ },
                              Dir := some cdir, Labels := labels, Hooks := hooks },
                            rfl, himp, hk, fun s => ?_, ?_⟩
                          · rw [← hslot s]
                            cases s <;> rfl
                          · simp [hcomp]
                        · right
                          simp only [mapStore, keyHashable, hk, if_false]
                          exact ⟨⟨_, rfl⟩, targetV, rawV, rfl, hslot, hcomp⟩
                      · right
                        exact ⟨⟨_, rfl⟩, targetV, rawV, rfl, hslot, hcomp⟩
                  · left
                    simp [himp, adoptInstance_slot, adoptInstance_components]

/-- Every run of initComponent keeps the older closers in place and appends the
closer of each plugin instance it loaded: one when the factory call was reached
and handed back a plugin instance, none otherwise. -/
theorem initComponent_closers (env : Env) (a : App) (typ : ComponentType)
    (target : Target) (f : Option Factory) (cfg : Option Operation)
    (labels : List (String × String)) :
    (a.initComponent env typ target f cfg labels).2.closers
      = a.closers ++ (initComponentInstances env a typ target f cfg).map (closerOf env) := by
  unfold App.initComponent initComponentInstances
  cases target with
  | notPtr => simp
  | ptr targetV =>
    cases cfg with
    | none => simp
    | some cfg1 =>
      cases f with
      | none => rcases hu : cfg1.Use with _ | use <;> simp [hu]
      | some fac =>
        rcases hu : cfg1.Use with _ | use
        · simp [hu]
        · rcases hfn : fac.Func use.Type_ with _ | fn
          · simp [hu, hfn]
          · rcases hdir : env.dirComponent a.dir typ.String.toLower use.Type_ with err | cdir
            · simp [hu, hfn, hdir]
            · rcases hcall : env.FactoryCall fn
                  [TypedVal.ctx, TypedVal.source a.source,
                   TypedVal.logger typ.String.toLower, TypedVal.componentDir (some cdir)]
                with err | out
              · simp [hu, hfn, hdir, hcall]
              · simp only [hu, hfn, hdir, hcall]
                rw [← adoptInstance_closers env a out]
                rcases hraw : (adoptInstance env a out).1 with _ | rawV
                · rfl
                · simp only
                  split
                  · rfl
                  · split
                    · rfl
                    · split
                      · exact setSlot_closers _ _ _
                      · split
                        · exact setSlot_closers _ _ _
                        · exact setSlot_closers _ _ _

/-- C10: when initComponent returns an error, the four capability fields and the
metadata map are exactly as before the call. A field or the map differs after the
call only when no error was returned: the field is assigned and the entry stored
where no error return can follow (what can still follow is a panic, on a nil hook
pointer or on a component value that cannot be a map key). And when initComponent
returns nil, the target field holds the new value and the map holds its entry. -/
theorem initComponent_error_keeps_state (env : Env) (a : App) (typ : ComponentType)
    (target : Target) (f : Option Factory) (cfg : Option Operation)
    (labels : List (String × String)) :
    (∀ err, (a.initComponent env typ target f cfg labels).1 = Res.ret (some err) →
        (a.initComponent env typ target f cfg labels).2.Builder = a.Builder
        ∧ (a.initComponent env typ target f cfg labels).2.Registry = a.Registry
        ∧ (a.initComponent env typ target f cfg labels).2.Platform = a.Platform
        ∧ (a.initComponent env typ target f cfg labels).2.Releaser = a.Releaser
        ∧ (a.initComponent env typ target f cfg labels).2.components = a.components)
    ∧ (((∃ s, (a.initComponent env typ target f cfg labels).2.slot s ≠ a.slot s)
        ∨ (a.initComponent env typ target f cfg labels).2.components ≠ a.components) →
        ∀ err, (a.initComponent env typ target f cfg labels).1 ≠ Res.ret (some err))
    ∧ ((a.initComponent env typ target f cfg labels).1 = Res.ret none →
        ∃ t rawV m, target = Target.ptr t
          ∧ (a.initComponent env typ target f cfg labels).2.slot t = some rawV
          ∧ mapGet (a.initComponent env typ target f cfg labels).2.components (some rawV)
            = some (some m)) := by
  rcases initComponent_cases env a typ target f cfg labels with
    ⟨hne, hs, hc⟩ | ⟨hok, t, rawV, m, ht, _, _, hs, hc⟩ | ⟨⟨msg, hp⟩, _⟩
  · refine ⟨fun _ _ => ⟨hs Slot.Builder, hs Slot.Registry, hs Slot.Platform,
      hs Slot.Releaser, hc⟩, ?_, fun h => absurd h hne⟩
    rintro (⟨s, h⟩ | h)
    · exact absurd (hs s) h
    · exact absurd hc h
  · refine ⟨fun err h => ?_, fun _ err h => ?_, fun _ => ⟨t, rawV, m, ht, ?_, ?_⟩⟩
    · rw [hok] at h
      simp at h
    · rw [hok] at h
      simp at h
    · rw [hs]
      simp
    · rw [hc]
      simp [mapSet, mapGet]
  · refine ⟨fun err h => ?_, fun _ err h => ?_, fun h => ?_⟩
    · rw [hp] at h
      simp at h
    · rw [hp] at h
      simp at h
    · rw [hp] at h
      simp at h

/-- Witness of C10: the factory hands back a plugin instance whose component is a
builder, the target is the Platform field, and the call fails on the type check
after the closer of the instance was registered. -/
theorem initComponent_error_keeps_state_witness :
    (emptyApp.initComponent sampleEnv ComponentType.PlatformType (Target.ptr Slot.Platform)
        (some sampleFactory)
        (some { Use := some { Type_ := "docker", Body := 0 }, Hooks := [], Labels := [] })
        []).2.Builder = emptyApp.Builder
    ∧ (emptyApp.initComponent sampleEnv ComponentType.PlatformType (Target.ptr Slot.Platform)
        (some sampleFactory)
        (some { Use := some { Type_ := "docker", Body := 0 }, Hooks := [], Labels := [] })
        []).2.Registry = emptyApp.Registry
    ∧ (emptyApp.initComponent sampleEnv ComponentType.PlatformType (Target.ptr Slot.Platform)
        (some sampleFactory)
        (some { Use := some { Type_ := "docker", Body := 0 }, Hooks := [], Labels := [] })
        []).2.Platform = emptyApp.Platform
    ∧ (emptyApp.initComponent sampleEnv ComponentType.PlatformType (Target.ptr Slot.Platform)
        (some sampleFactory)
        (some { Use := some { Type_ := "docker", Body := 0 }, Hooks := [], Labels := [] })
        []).2.Releaser = emptyApp.Releaser
    ∧ (emptyApp.initComponent sampleEnv ComponentType.PlatformType (Target.ptr Slot.Platform)
        (some sampleFactory)
        (some { Use := some { Type_ := "docker", Body := 0 }, Hooks := [], Labels := [] })
        []).2.components = emptyApp.components :=
  (initComponent_error_keeps_state sampleEnv emptyApp ComponentType.PlatformType
    (Target.ptr Slot.Platform) (some sampleFactory)
    (some { Use := some { Type_ := "docker", Body := 0 }, Hooks := [], Labels := [] }) []).1
    (Error.errorf "component *docker.Builder not assigntable to type component.Platform") rfl

/-- A run of initComponent that panics after the field was set: the component is
of a type that cannot be a map key, so the Platform field holds it and the map has
no entry for it; and a run that panics in the hook loop on a nil hook pointer. -/
theorem initComponent_panics_after_set_sample :
    emptyApp.initComponent sampleEnv ComponentType.PlatformType (Target.ptr Slot.Platform)
        (some sampleFactory)
        (some { Use := some { Type_ := "lambda", Body := 0 }, Hooks := [], Labels := [] }) []
      = (Res.panic "runtime error: hash of unhashable type",
         { emptyApp with Platform := some sliceValue })
    ∧ emptyApp.initComponent sampleEnv ComponentType.PlatformType (Target.ptr Slot.Platform)
        (some sampleFactory)
        (some { Use := some { Type_ := "k8s", Body := 0 }, Hooks := [none], Labels := [] }) []
      = (Res.panic "nil pointer dereference",
         { emptyApp with Platform := some samplePlatform }) := by
  refine ⟨by decide, by decide⟩

/-- The loop of initMappers keeps the older closers in place and appends the closer
of each plugin instance it loaded, in loading order. -/
theorem initMappersLoop_closers (env : Env) (f : Factory) :
    ∀ (names : List String) (a : App),
      (initMappersLoop env f names a).2.closers
        = a.closers ++ (mapperInstances env f names).map (closerOf env) := by
  intro names
  induction names with
  | nil => intro a; simp [initMappersLoop, mapperInstances]
  | cons name rest ih =>
    intro a
    unfold initMappersLoop mapperInstances
    rcases hfn : f.Func name with _ | fn
    · simp
    · simp only
      rcases hcall : env.FactoryCall fn [TypedVal.ctx, TypedVal.logger "app"] with err | out
      · simp
      · simp only
        rw [ih, adoptInstance_closers]
        simp

/-! ## Maps: keys and reads after a write -/

theorem mem_mapKeys_mapSet {κ ν : Type} [DecidableEq κ] (m : List (κ × ν)) (key k : κ) (v : ν) :
    k ∈ mapKeys (mapSet m key v) ↔ k = key ∨ k ∈ mapKeys m := by
  unfold mapKeys mapSet
  simp only [List.map_cons, List.mem_cons, List.mem_map, List.mem_filter, decide_eq_true_eq]
  constructor
  · rintro (h | ⟨p, ⟨hp, _⟩, hk⟩)
    · exact Or.inl h
    · exact Or.inr ⟨p, hp, hk⟩
  · rintro (h | ⟨p, hp, hk⟩)
    · exact Or.inl h
    · by_cases hkey : k = key
      · exact Or.inl hkey
      · exact Or.inr ⟨p, ⟨hp, by rw [hk]; exact hkey⟩, hk⟩

theorem mapGet_mapSet_self {κ ν : Type} [DecidableEq κ] (m : List (κ × ν)) (key : κ) (v : ν) :
    mapGet (mapSet m key v) key = some v := by
  simp [mapSet, mapGet]

theorem mapGet_filter_ne {κ ν : Type} [DecidableEq κ] (m : List (κ × ν)) (key k : κ)
    (h : k ≠ key) :
    mapGet (m.filter (fun p => decide (p.1 ≠ key))) k = mapGet m k := by
  induction m with
  | nil => rfl
  | cons p rest ih =>
    obtain ⟨k1, v1⟩ := p
    simp only [ne_eq, decide_not] at ih ⊢
    by_cases h1 : k1 = key
    · have hne : ¬ key = k := fun e => h e.symm
      subst h1
      simp [List.filter, mapGet, hne, ih]
    · by_cases h2 : k1 = k
      · subst h2
        simp [List.filter, mapGet, h1]
      · simp [List.filter, mapGet, h1, h2, ih]

theorem mapGet_mapSet_ne {κ ν : Type} [DecidableEq κ] (m : List (κ × ν)) (key k : κ) (v : ν)
    (h : k ≠ key) :
    mapGet (mapSet m key v) k = mapGet m k := by
  have hne : ¬ key = k := fun e => h e.symm
  simp only [mapSet, mapGet, hne, if_false]
  exact mapGet_filter_ne m key k h

/-! ## The component set of an App -/

theorem keysAreSlots_bind (a b : App) (t : Slot) (rawV : Value) (m : Option appComponent)
    (hinv : keysAreSlots a) (ht : a.slot t = none)
    (hslot : ∀ s, b.slot s = if s = t then some rawV else a.slot s)
    (hcomp : b.components = mapSet a.components (some rawV) m) :
    keysAreSlots b := by
  intro k
  unfold App.Components
  rw [hcomp, mem_mapKeys_mapSet]
  constructor
  · rintro (h | h)
    · subst h
      exact ⟨by simp, t, by simp [hslot]⟩
    · obtain ⟨hk, s, hs⟩ := (hinv k).1 h
      refine ⟨hk, s, ?_⟩
      have hst : s ≠ t := by
        intro e
        subst e
        rw [ht] at hs
        exact hk hs.symm
      simp [hslot, hst, hs]
  · rintro ⟨hk, s, hs⟩
    rw [hslot] at hs
    by_cases hst : s = t
    · left
      simp [hst] at hs
      exact hs.symm
    · right
      simp [hst] at hs
      exact (hinv k).2 ⟨hk, s, hs⟩

/-! ## The loading loop of newApp -/

theorem loadComponent_ok (env : Env) (p : Project) (c : ComponentEntry) (a b : App)
    (h : loadComponent env p c a = (Res.ret none, b)) :
    (c.isSet = false ∧ b = a)
    ∨ (c.isSet = true ∧ ∃ rawV m,
        (∀ s, b.slot s = if s = c.Target then some rawV else a.slot s)
        ∧ b.components = mapSet a.components (some rawV) (some m)) := by
  unfold loadComponent at h
  unfold ComponentEntry.isSet
  rcases hc : c.Config with _ | op
  · rw [hc] at h
    simp only [Prod.mk.injEq, true_and] at h
    exact Or.inl ⟨rfl, h.symm⟩
  · rw [hc] at h
    rcases hu : op.Use with _ | use
    · simp only [hu, Prod.mk.injEq, true_and] at h
      exact Or.inl ⟨by simp [hu], h.symm⟩
    · simp only [hu] at h
      right
      refine ⟨by simp [hu], ?_⟩
      rcases initComponent_cases env a c.Type_ (Target.ptr c.Target) (p.factories c.Type_)
          (some op) op.Labels with
        ⟨hne, _⟩ | ⟨_, t, rawV, m, ht, _, _, hs, hm⟩ | ⟨⟨msg, hp⟩, _⟩
      · rw [h] at hne
        exact absurd rfl hne
      · rw [h] at hs hm
        cases ht
        exact ⟨rawV, m, hs, hm⟩
      · rw [h] at hp
        simp at hp

theorem loadComponents_ok (env : Env) (p : Project) :
    ∀ (entries : List ComponentEntry) (a b : App),
      loadComponents env p entries a = (Res.ret none, b) →
      (∀ s, (∀ c ∈ entries, c.Target = s → c.isSet = false) → b.slot s = a.slot s)
      ∧ (∀ s, a.slot s ≠ none → b.slot s ≠ none)
      ∧ (∀ c ∈ entries, c.isSet = true → b.slot c.Target ≠ none)
      ∧ (keysAreSlots a → (∀ c ∈ entries, a.slot c.Target = none) →
          (entries.map (fun c => c.Target)).Nodup → keysAreSlots b) := by
  intro entries
  induction entries with
  | nil =>
    intro a b h
    simp only [loadComponents, Prod.mk.injEq, true_and] at h
    subst h
    exact ⟨fun _ _ => rfl, fun _ h => h, by simp, fun h _ _ => h⟩
  | cons c rest ih =>
    intro a b h
    unfold loadComponents at h
    rcases hstep : loadComponent env p c a with ⟨r, a1⟩
    rw [hstep] at h
    rcases r with (_ | err) | msg
    · simp only at h
      obtain ⟨ih1, ih2, ih3, ih4⟩ := ih a1 b h
      have hcase := loadComponent_ok env p c a a1 hstep
      have hmono : ∀ s, a.slot s ≠ none → a1.slot s ≠ none := by
        intro s hs
        rcases hcase with ⟨_, e⟩ | ⟨_, rawV, m, hsl, _⟩
        · rw [e]; exact hs
        · rw [hsl]
          by_cases hst : s = c.Target
          · simp [hst]
          · simp [hst, hs]
      refine ⟨?_, fun s hs => ih2 s (hmono s hs), ?_, ?_⟩
      · intro s hall
        rw [ih1 s (fun c1 hc1 => hall c1 (List.mem_cons_of_mem _ hc1))]
        rcases hcase with ⟨_, e⟩ | ⟨hset, rawV, m, hsl, _⟩
        · rw [e]
        · rw [hsl]
          by_cases hst : s = c.Target
          · have := hall c (List.mem_cons_self _ _) hst.symm
            rw [hset] at this
            exact absurd this (by simp)
          · simp [hst]
      · intro c1 hc1 hset1
        rcases List.mem_cons.1 hc1 with e | hmem
        · subst e
          apply ih2
          rcases hcase with ⟨hunset, _⟩ | ⟨_, rawV, m, hsl, _⟩
          · rw [hset1] at hunset
            exact absurd hunset (by simp)
          · rw [hsl]
            simp
        · exact ih3 c1 hmem hset1
      · intro hinv hnone hnodup
        simp only [List.map_cons, List.nodup_cons, List.mem_map, not_exists, not_and] at hnodup
        apply ih4
        · rcases hcase with ⟨_, e⟩ | ⟨_, rawV, m, hsl, hm⟩
          · rw [e]; exact hinv
          · exact keysAreSlots_bind a a1 c.Target rawV (some m) hinv
              (hnone c (List.mem_cons_self _ _)) hsl hm
        · intro c1 hc1
          rcases hcase with ⟨_, e⟩ | ⟨_, rawV, m, hsl, _⟩
          · rw [e]; exact hnone c1 (List.mem_cons_of_mem _ hc1)
          · rw [hsl]
            have hne : c1.Target ≠ c.Target := hnodup.1 c1 hc1
            simp [hne, hnone c1 (List.mem_cons_of_mem _ hc1)]
        · exact hnodup.2
    · simp at h
    · simp at h

theorem initMappersLoop_keeps (env : Env) (f : Factory) :
    ∀ (names : List String) (a : App),
      (∀ s, (initMappersLoop env f names a).2.slot s = a.slot s)
      ∧ (initMappersLoop env f names a).2.components = a.components := by
  intro names
  induction names with
  | nil => intro a; exact ⟨fun _ => rfl, rfl⟩
  | cons name rest ih =>
    intro a
    unfold initMappersLoop
    rcases hfn : f.Func name with _ | fn
    · exact ⟨fun _ => rfl, rfl⟩
    · simp only
      rcases hcall : env.FactoryCall fn [TypedVal.ctx, TypedVal.logger "app"] with err | out
      · exact ⟨fun _ => rfl, rfl⟩
      · simp only
        obtain ⟨h1, h2⟩ := ih (adoptInstance env a out).2
        exact ⟨fun s => by rw [h1, adoptInstance_slot], by rw [h2, adoptInstance_components]⟩

theorem loadComponent_closers (env : Env) (p : Project) (c : ComponentEntry) (a : App) :
    (loadComponent env p c a).2.closers
      = a.closers ++ (loadComponentInstances env p c a).map (closerOf env) := by
  unfold loadComponent loadComponentInstances
  rcases hc : c.Config with _ | op
  · simp
  · rcases hu : op.Use with _ | use
    · simp [hu]
    · simp only [hu]
      exact initComponent_closers env a c.Type_ (Target.ptr c.Target) (p.factories c.Type_)
        (some op) op.Labels

theorem loadComponents_closers (env : Env) (p : Project) :
    ∀ (entries : List ComponentEntry) (a : App),
      (loadComponents env p entries a).2.closers
        = a.closers ++ (loadComponentsInstances env p entries a).map (closerOf env) := by
  intro entries
  induction entries with
  | nil => intro a; simp [loadComponents, loadComponentsInstances]
  | cons c rest ih =>
    intro a
    unfold loadComponents loadComponentsInstances
    have hstep := loadComponent_closers env p c a
    rcases hres : loadComponent env p c a with ⟨r, a1⟩
    rw [hres] at hstep
    rcases r with (_ | err) | msg
    · simp only
      rw [ih a1, hstep]
      simp
    · simp only
      rw [hstep]
      simp
    · simp only
      rw [hstep]
      simp

/-! ## Releaser defaulting -/

theorem callDynamicFunc_ok_inv (env : Env) (a : App) (log : String) (interfaceType : Iface)
    (c : Option Value) (f : Option FuncRef) (args : List Arg) (w w1 : World)
    (raw : Option Value)
    (h : a.callDynamicFunc env log (some interfaceType) c f args w = (Res.ret (raw, none), w1)) :
    ∃ rawFunc componentData rawV,
      rawFuncOf env f = Res.ret (Except.ok rawFunc)
      ∧ mapIndex a.components c = Res.ret (some (some componentData))
      ∧ (env.Call rawFunc (dynamicArgs a log componentData args)).Err = none
      ∧ (env.Call rawFunc (dynamicArgs a log componentData args)).Out.head? = some (some rawV)
      ∧ rawV.typ.Implements interfaceType = true
      ∧ raw = some rawV
      ∧ w1 = worldAfterCall w rawFunc (dynamicArgs a log componentData args) := by
  unfold App.callDynamicFunc at h
  rcases hf : rawFuncOf env f with (err | rawFunc) | msg
  · rw [hf] at h
    simp at h
  · rw [hf] at h
    rcases hc : mapIndex a.components c with (_ | _ | componentData) | msg
    · simp [hc] at h
    · simp [hc] at h
    · simp only [hc] at h
      rcases herr : (env.Call rawFunc (dynamicArgs a log componentData args)).Err with _ | err
      · simp only [herr] at h
        rcases hout : (env.Call rawFunc (dynamicArgs a log componentData args)).Out
          with _ | ⟨_ | rawV, rest⟩
        · simp [hout] at h
        · simp [hout] at h
        · simp only [hout] at h
          by_cases himp : rawV.typ.Implements interfaceType = true
          · simp only [himp, Bool.not_true, Bool.false_eq_true, if_false, Prod.mk.injEq,
              Res.ret.injEq, and_true] at h
            refine ⟨rawFunc, componentData, rawV, rfl, rfl, herr,
              (by first | rfl | (rw [hout]; rfl)), himp,
              h.1.symm, ?_⟩
            rw [← h.2]
            simp [World.closeStatus, worldAfterCall]
          · simp [himp] at h
      · simp [herr] at h
    · simp [hc] at h
  · rw [hf] at h
    simp at h

theorem defaultReleaser_ok (env : Env) (app app1 : App) (w w1 : World)
    (h : defaultReleaser env app w = (Res.ret (some app1, none), w1)) :
    (app1 = app ∧ w1 = w
      ∧ (app.Releaser ≠ none ∨ app.Platform = none
        ∨ ∃ platform, app.Platform = some platform
          ∧ (platform.typ.Implements Iface.PlatformReleaser
              && (env.DefaultReleaserFunc platform).isSome) = false))
    ∨ (app.Releaser = none ∧ ∃ platform rawFunc componentData rawV,
        app.Platform = some platform
        ∧ platform.typ.Implements Iface.PlatformReleaser = true
        ∧ (env.DefaultReleaserFunc platform).isSome = true
        ∧ rawFuncOf env (env.DefaultReleaserFunc platform) = Res.ret (Except.ok rawFunc)
        ∧ mapIndex app.components (some platform) = Res.ret (some (some componentData))
        ∧ (env.Call rawFunc (dynamicArgs app "app" componentData [])).Err = none
        ∧ (env.Call rawFunc (dynamicArgs app "app" componentData [])).Out.head?
            = some (some rawV)
        ∧ rawV.typ.Implements Iface.ReleaseManager = true
        ∧ rawV.typ.hashable = true
        ∧ app1 = { app with Releaser := some rawV,
                            components := mapSet app.components (some rawV) (some componentData) }
        ∧ w1 = worldAfterCall w rawFunc (dynamicArgs app "app" componentData [])) := by
  unfold defaultReleaser at h
  rcases hr : app.Releaser with _ | r
  · rcases hp : app.Platform with _ | platform
    · simp only [hr, hp, Prod.mk.injEq, Res.ret.injEq, Option.some.injEq, and_true] at h
      exact Or.inl ⟨h.1.symm, h.2.symm, Or.inr (Or.inl rfl)⟩
    · simp only [hr, hp] at h
      by_cases hcond : (platform.typ.Implements Iface.PlatformReleaser
          && (env.DefaultReleaserFunc platform).isSome) = true
      · simp only [hcond, if_true] at h
        rcases hcall : app.callDynamicFunc env "app" (some Iface.ReleaseManager) (some platform)
            (env.DefaultReleaserFunc platform) [] w with ⟨res, w2⟩
        rw [hcall] at h
        rcases res with ⟨raw, _ | err⟩ | msg
        · obtain ⟨rawFunc, componentData, rawV, hf, hc, herr, hout, himp, hraw, hw⟩ :=
            callDynamicFunc_ok_inv env app "app" Iface.ReleaseManager (some platform)
              (env.DefaultReleaserFunc platform) [] w w2 raw hcall
          subst hraw
          simp only [himp, Bool.not_true, Bool.false_eq_true, if_false, hc] at h
          rw [Bool.and_eq_true] at hcond
          by_cases hk : rawV.typ.hashable = true
          · simp only [mapStore, keyHashable, hk, if_true, Prod.mk.injEq, Res.ret.injEq,
              Option.some.injEq, and_true] at h
            right
            refine ⟨rfl, platform, rawFunc, componentData, rawV, rfl, hcond.1, hcond.2, hf,
              hc, herr, hout, himp, hk, ?_, ?_⟩
            · rw [← h.1]
              simp [hr]
            · rw [← h.2, hw]
          · simp [mapStore, keyHashable, hk] at h
        · simp at h
        · simp at h
      · simp only [hcond, Bool.false_eq_true, if_false, Prod.mk.injEq, Res.ret.injEq,
          Option.some.injEq, and_true] at h
        exact Or.inl ⟨h.1.symm, h.2.symm,
          Or.inr (Or.inr ⟨platform, rfl, by simpa using hcond⟩)⟩
  · simp only [hr, Prod.mk.injEq, Res.ret.injEq, Option.some.injEq, and_true] at h
    exact Or.inl ⟨h.1.symm, h.2.symm, Or.inl (by simp)⟩

/-! ## newApp -/

theorem isSet_false_of_notConfigured (c : ComponentEntry) (h : notConfigured c.Config) :
    c.isSet = false := by
  unfold ComponentEntry.isSet
  rcases h with h | ⟨op, h, hu⟩ <;> simp [h, *]

theorem keysAreSlots_congr (a b : App) (hs : ∀ s, b.slot s = a.slot s)
    (hc : b.components = a.components) (h : keysAreSlots a) : keysAreSlots b := by
  intro k
  unfold App.Components
  rw [hc]
  simpa [hs, App.Components] using h k

/-- A successful newApp went through its four stages: the data directory, the
loading loop from the initial App, the mapper plugins, and the releaser
defaulting. -/
theorem newApp_stages (env : Env) (p : Project) (cfg : ConfigApp) (w w1 : World) (app : App)
    (h : newApp env p cfg w = (Res.ret (some app, none), w1)) :
    ∃ (dir : Dir) (a1 a2 : App),
      env.dirApp cfg.Name = Except.ok dir
      ∧ loadComponents env p (componentTable cfg) (initialApp env p cfg dir)
          = (Res.ret none, a1)
      ∧ (match p.factories ComponentType.MapperType with
          | some f => a1.initMappers env f
          | none => (Res.ret none, a1)) = (Res.ret none, a2)
      ∧ defaultReleaser env a2 w = (Res.ret (some app, none), w1) := by
  unfold newApp at h
  rcases hdir : env.dirApp cfg.Name with err | dir
  · simp [hdir] at h
  · simp only [hdir] at h
    split at h
    · simp at h
    · simp at h
    · rename_i a1 hload
      split at h
      · simp at h
      · simp at h
      · rename_i a2 hm
        exact ⟨dir, a1, a2, rfl, hload, hm, h⟩

theorem newApp_ok (env : Env) (p : Project) (cfg : ConfigApp) (w w1 : World) (app : App)
    (h : newApp env p cfg w = (Res.ret (some app, none), w1)) :
    ∃ a0 a1 a2 : App,
      (∀ s, a0.slot s = none) ∧ a0.components = []
      ∧ loadComponents env p (componentTable cfg) a0 = (Res.ret none, a1)
      ∧ (∀ s, a2.slot s = a1.slot s) ∧ a2.components = a1.components
      ∧ defaultReleaser env a2 w = (Res.ret (some app, none), w1) := by
  obtain ⟨dir, a1, a2, _, hload, hm, hdef⟩ := newApp_stages env p cfg w w1 app h
  refine ⟨initialApp env p cfg dir, a1, a2, fun s => by cases s <;> rfl, rfl, hload, ?_, ?_, hdef⟩
  · rcases hfac : p.factories ComponentType.MapperType with _ | f
    · simp only [hfac, Prod.mk.injEq, true_and] at hm
      rw [hm]
      exact fun _ => rfl
    · simp only [hfac] at hm
      have hk := (initMappersLoop_keeps env f f.Registered a1).1
      unfold App.initMappers at hm
      rw [hm] at hk
      exact hk
  · rcases hfac : p.factories ComponentType.MapperType with _ | f
    · simp only [hfac, Prod.mk.injEq, true_and] at hm
      rw [hm]
    · simp only [hfac] at hm
      have hk := (initMappersLoop_keeps env f f.Registered a1).2
      unfold App.initMappers at hm
      rw [hm] at hk
      exact hk

theorem newApp_sample :
    newApp sampleEnv sampleProject sampleConfig world0
      = (Res.ret (some sampleApp, none), sampleWorld) := by
  decide

theorem newApp_closers (env : Env) (p : Project) (cfg : ConfigApp) (w w1 : World) (app : App)
    (h : newApp env p cfg w = (Res.ret (some app, none), w1)) :
    app.closers = (newAppInstances env p cfg).map (closerOf env) := by
  obtain ⟨dir, a1, a2, hdir, hload, hm, hdef⟩ := newApp_stages env p cfg w w1 app h
  have h1 := loadComponents_closers env p (componentTable cfg) (initialApp env p cfg dir)
  rw [hload] at h1
  have h2 : a2.closers = a1.closers ++
      (match p.factories ComponentType.MapperType with
        | some f => mapperInstances env f f.Registered
        | none => []).map (closerOf env) := by
    rcases hfac : p.factories ComponentType.MapperType with _ | f
    · simp only [hfac, Prod.mk.injEq, true_and] at hm
      rw [hm]
      simp
    · simp only [hfac] at hm
      have hk := initMappersLoop_closers env f f.Registered a1
      unfold App.initMappers at hm
      rw [hm] at hk
      exact hk
  have h3 : app.closers = a2.closers := by
    rcases defaultReleaser_ok env a2 app w w1 hdef with ⟨e, _, _⟩ |
      ⟨_, platform, rawFunc, componentData, rawV, _, _, _, _, _, _, _, _, _, happ, _⟩
    · rw [e]
    · rw [happ]
  rw [h3, h2, h1]
  unfold newAppInstances
  simp only [hdir, hload]
  simp [initialApp]

theorem keysAreSlots_of_newApp (env : Env) (p : Project) (cfg : ConfigApp) (w w1 : World)
    (app : App) (h : newApp env p cfg w = (Res.ret (some app, none), w1)) :
    keysAreSlots app := by
  obtain ⟨a0, a1, a2, hs0, hc0, hload, hs2, hc2, hdef⟩ := newApp_ok env p cfg w w1 app h
  have hinv0 : keysAreSlots a0 := by
    intro k
    unfold App.Components mapKeys
    rw [hc0]
    simp only [List.map_nil, List.not_mem_nil, false_iff, not_and, not_exists]
    intro hk s hs
    rw [hs0] at hs
    exact hk hs.symm
  have hinv1 : keysAreSlots a1 :=
    (loadComponents_ok env p (componentTable cfg) a0 a1 hload).2.2.2 hinv0
      (fun c _ => hs0 c.Target) (by simp [componentTable])
  have hinv2 : keysAreSlots a2 := keysAreSlots_congr a1 a2 hs2 hc2 hinv1
  rcases defaultReleaser_ok env a2 app w w1 hdef with ⟨e, _, _⟩ |
    ⟨hrel, platform, rawFunc, componentData, rawV, _, _, _, _, _, _, _, _, _, happ, _⟩
  · rw [e]; exact hinv2
  · refine keysAreSlots_bind a2 app Slot.Releaser rawV (some componentData) hinv2 hrel ?_ ?_
    · intro s
      rw [happ]
      cases s <;> simp [App.slot]
    · rw [happ]

theorem slot_of_newApp_notConfigured (env : Env) (p : Project) (cfg : ConfigApp)
    (w w1 : World) (app : App) (h : newApp env p cfg w = (Res.ret (some app, none), w1))
    (s : Slot) (hs : s ≠ Slot.Releaser)
    (hcfg : ∀ c ∈ componentTable cfg, c.Target = s → notConfigured c.Config) :
    app.slot s = none := by
  obtain ⟨a0, a1, a2, hs0, _, hload, hs2, _, hdef⟩ := newApp_ok env p cfg w w1 app h
  have h1 : a1.slot s = none := by
    rw [(loadComponents_ok env p (componentTable cfg) a0 a1 hload).1 s
      (fun c hc ht => isSet_false_of_notConfigured c (hcfg c hc ht))]
    exact hs0 s
  have h2 : a2.slot s = none := by rw [hs2, h1]
  rcases defaultReleaser_ok env a2 app w w1 hdef with ⟨e, _, _⟩ |
    ⟨_, platform, rawFunc, componentData, rawV, _, _, _, _, _, _, _, _, _, happ, _⟩
  · rw [e]; exact h2
  · rw [happ]
    cases s <;> first | exact absurd rfl hs | exact h2

/-- With no release manager set, the Releaser field of the App a successful newApp
returns is filled exactly when the platform of that App offers a default releaser
function. -/
theorem releaser_of_newApp_notConfigured (env : Env) (p : Project) (cfg : ConfigApp)
    (w w1 : World) (app : App) (h : newApp env p cfg w = (Res.ret (some app, none), w1))
    (hcfg : notConfigured cfg.ReleaseOperation) :
    app.Releaser ≠ none ↔
      ∃ platform, app.Platform = some platform
        ∧ platform.typ.Implements Iface.PlatformReleaser = true
        ∧ (env.DefaultReleaserFunc platform).isSome = true := by
  obtain ⟨a0, a1, a2, hs0, _, hload, hs2, _, hdef⟩ := newApp_ok env p cfg w w1 app h
  have h1 : a1.slot Slot.Releaser = none := by
    rw [(loadComponents_ok env p (componentTable cfg) a0 a1 hload).1 Slot.Releaser ?_]
    · exact hs0 _
    · intro c hmem ht
      apply isSet_false_of_notConfigured
      simp only [componentTable, List.mem_cons, List.mem_singleton, List.not_mem_nil,
        or_false] at hmem
      rcases hmem with e | e | e | e <;> subst e <;> first | exact hcfg | cases ht
  have h2 : a2.Releaser = none := (hs2 Slot.Releaser).trans h1
  rcases defaultReleaser_ok env a2 app w w1 hdef with ⟨e, _, hno⟩ |
    ⟨_, platform, rawFunc, componentData, rawV, hp, himpl, hsome, _, _, _, _, _, _, happ, _⟩
  · subst e
    constructor
    · intro hne
      exact absurd h2 hne
    · rintro ⟨platform, hplat, himpl, hsome⟩
      rcases hno with hno | hno | ⟨pl, hpl, hcond⟩
      · exact hno
      · rw [hplat] at hno
        cases hno
      · rw [hplat] at hpl
        cases hpl
        rw [himpl, hsome] at hcond
        simp at hcond
  · constructor
    · intro _
      refine ⟨platform, ?_, himpl, hsome⟩
      rw [happ]
      exact hp
    · intro _
      rw [happ]
      simp

/-- C8 as stated fails: in the sample run no release manager is set (the release
operation is nil), newApp succeeds, and yet the Releaser field of the returned App
is not nil and its value is a key of the metadata map: releaser defaulting filled
the field and added the entry. -/
theorem newApp_unset_releaser_counterexample :
    notConfigured sampleConfig.ReleaseOperation
    ∧ newApp sampleEnv sampleProject sampleConfig world0
        = (Res.ret (some sampleApp, none), sampleWorld)
    ∧ sampleApp.Releaser = some sampleReleaser
    ∧ sampleApp.Releaser ≠ none
    ∧ sampleApp.Releaser ∈ sampleApp.Components :=
  ⟨Or.inl rfl, by decide, rfl, by decide, by decide⟩

/-- C8 amended: when newApp succeeds, the keys of the metadata map of the returned
App (what Components enumerates) are exactly the non-nil values held in the fields
Builder, Registry, Platform and Releaser. A role with no component set (nil
operation or nil use stanza) is skipped by the loading loop: the step returns nil
and leaves the App, its fields and its map as they were. So the Builder, Registry
and Platform fields of the returned App are nil when their role is not set; the
Releaser field of a release role that is not set is nil unless releaser defaulting
filled it, which happens exactly when the platform of the App offers a default
releaser function. -/
theorem newApp_components_are_slots (env : Env) (p : Project) (cfg : ConfigApp)
    (w w1 : World) (app : App)
    (h : newApp env p cfg w = (Res.ret (some app, none), w1)) :
    (∀ k : Option Value, k ∈ app.Components ↔
        (k ≠ none ∧ k ∈ [app.Builder, app.Registry, app.Platform, app.Releaser]))
    ∧ (∀ c ∈ componentTable cfg, notConfigured c.Config →
        ∀ a : App, loadComponent env p c a = (Res.ret none, a))
    ∧ (notConfigured cfg.BuildOperation → app.Builder = none)
    ∧ (notConfigured cfg.RegistryOperation → app.Registry = none)
    ∧ (notConfigured cfg.DeployOperation → app.Platform = none)
    ∧ (notConfigured cfg.ReleaseOperation →
        (app.Releaser ≠ none ↔
          ∃ platform, app.Platform = some platform
            ∧ platform.typ.Implements Iface.PlatformReleaser = true
            ∧ (env.DefaultReleaserFunc platform).isSome = true)) := by
  refine ⟨?_, ?_, ?_, ?_, ?_, releaser_of_newApp_notConfigured env p cfg w w1 app h⟩
  · intro k
    rw [keysAreSlots_of_newApp env p cfg w w1 app h k]
    constructor
    · rintro ⟨hk, s, hs⟩
      refine ⟨hk, ?_⟩
      cases s <;> simp [← hs, App.slot]
    · rintro ⟨hk, hmem⟩
      refine ⟨hk, ?_⟩
      simp only [List.mem_cons, List.mem_singleton, List.not_mem_nil, or_false] at hmem
      rcases hmem with e | e | e | e
      · exact ⟨Slot.Builder, e.symm⟩
      · exact ⟨Slot.Registry, e.symm⟩
      · exact ⟨Slot.Platform, e.symm⟩
      · exact ⟨Slot.Releaser, e.symm⟩
  · intro c _ hc a
    unfold loadComponent
    rcases hc with hc | ⟨op, hc, hu⟩
    · rw [hc]
    · rw [hc]
      simp only [hu]
  · intro hc
    refine slot_of_newApp_notConfigured env p cfg w w1 app h Slot.Builder (by decide) ?_
    intro c hmem ht
    simp only [componentTable, List.mem_cons, List.mem_singleton, List.not_mem_nil,
      or_false] at hmem
    rcases hmem with e | e | e | e <;> subst e <;> first | exact hc | cases ht
  · intro hc
    refine slot_of_newApp_notConfigured env p cfg w w1 app h Slot.Registry (by decide) ?_
    intro c hmem ht
    simp only [componentTable, List.mem_cons, List.mem_singleton, List.not_mem_nil,
      or_false] at hmem
    rcases hmem with e | e | e | e <;> subst e <;> first | exact hc | cases ht
  · intro hc
    refine slot_of_newApp_notConfigured env p cfg w w1 app h Slot.Platform (by decide) ?_
    intro c hmem ht
    simp only [componentTable, List.mem_cons, List.mem_singleton, List.not_mem_nil,
      or_false] at hmem
    rcases hmem with e | e | e | e <;> subst e <;> first | exact hc | cases ht

/-- Witness of C8 amended: the sample run of newApp, with a builder, a platform and
a defaulted releaser, and no registry. -/
theorem newApp_components_are_slots_witness :
    (∀ k : Option Value, k ∈ sampleApp.Components ↔
        (k ≠ none
          ∧ k ∈ [sampleApp.Builder, sampleApp.Registry, sampleApp.Platform, sampleApp.Releaser]))
    ∧ (notConfigured sampleConfig.RegistryOperation → sampleApp.Registry = none)
    ∧ (sampleApp.Releaser ≠ none ↔
        ∃ platform, sampleApp.Platform = some platform
          ∧ platform.typ.Implements Iface.PlatformReleaser = true
          ∧ (sampleEnv.DefaultReleaserFunc platform).isSome = true) :=
  ⟨(newApp_components_are_slots sampleEnv sampleProject sampleConfig world0 sampleWorld
      sampleApp (by decide)).1,
   (newApp_components_are_slots sampleEnv sampleProject sampleConfig world0 sampleWorld
      sampleApp (by decide)).2.2.2.1,
   (newApp_components_are_slots sampleEnv sampleProject sampleConfig world0 sampleWorld
      sampleApp (by decide)).2.2.2.2.2 (Or.inl rfl)⟩

theorem defaultReleaser_world_of_releaser (env : Env) (app : App) (w : World) (r : Value)
    (h : app.Releaser = some r) : (defaultReleaser env app w).2 = w := by
  unfold defaultReleaser
  rw [h]

theorem newApp_world_of_configured_releaser (env : Env) (p : Project) (cfg : ConfigApp)
    (w : World) (op : Operation) (use : Use)
    (hop : cfg.ReleaseOperation = some op) (huse : op.Use = some use) :
    (newApp env p cfg w).2 = w := by
  unfold newApp
  rcases hdir : env.dirApp cfg.Name with err | dir
  · rfl
  · simp only
    split
    · rfl
    · rfl
    · rename_i a1 hload
      have hrel : a1.slot Slot.Releaser ≠ none :=
        (loadComponents_ok env p (componentTable cfg) _ a1 hload).2.2.1
          { Target := Slot.Releaser, Type_ := ComponentType.ReleaseManagerType,
            Config := cfg.ReleaseOperation }
          (by simp [componentTable])
          (by simp [ComponentEntry.isSet, hop, huse])
      split
      · rfl
      · rfl
      · rename_i a2 hm
        have hkeep : a2.slot Slot.Releaser = a1.slot Slot.Releaser := by
          rcases hfac : p.factories ComponentType.MapperType with _ | f
          · simp only [hfac, Prod.mk.injEq, true_and] at hm
            rw [hm]
          · simp only [hfac] at hm
            have hk := (initMappersLoop_keeps env f f.Registered a1).1 Slot.Releaser
            unfold App.initMappers at hm
            rw [hm] at hk
            exact hk
        rcases hr : a2.Releaser with _ | r
        · exact absurd (hkeep.symm.trans hr) hrel
        · exact defaultReleaser_world_of_releaser env a2 w r hr

/-- C4: when newApp succeeds with no release manager set, and the platform of the
returned App implements PlatformReleaser with a non-nil default releaser function,
newApp called that function exactly once through callDynamicFunc; the call returned
with no error a value R that implements ReleaseManager; the Releaser field of the
App is R; and R has the same metadata entry as the platform, so ComponentProto(R)
equals ComponentProto(Platform), which is the info of the platform. When a release
manager is set in the configuration, newApp calls no dynamic function at all,
whether it succeeds or not. -/
theorem newApp_releaser_defaulting (env : Env) (p : Project) (cfg : ConfigApp) (w : World) :
    (∀ (app : App) (w1 : World) (platform : Value),
        newApp env p cfg w = (Res.ret (some app, none), w1) →
        notConfigured cfg.ReleaseOperation →
        app.Platform = some platform →
        platform.typ.Implements Iface.PlatformReleaser = true →
        (env.DefaultReleaserFunc platform).isSome = true →
        ∃ rawFunc args R componentData,
          rawFuncOf env (env.DefaultReleaserFunc platform) = Res.ret (Except.ok rawFunc)
          ∧ w1.trace = w.trace ++ [Event.call rawFunc args, Event.statusClose]
          ∧ (env.Call rawFunc args).Err = none
          ∧ (env.Call rawFunc args).Out.head? = some (some R)
          ∧ R.typ.Implements Iface.ReleaseManager = true
          ∧ app.Releaser = some R
          ∧ mapGet app.components (some R) = some (some componentData)
          ∧ mapGet app.components app.Platform = some (some componentData)
          ∧ app.ComponentProto (some R) = app.ComponentProto app.Platform
          ∧ app.ComponentProto app.Platform = Res.ret componentData.Info)
    ∧ (∀ op use, cfg.ReleaseOperation = some op → op.Use = some use →
        (newApp env p cfg w).2 = w
        ∧ ∀ g xs, Event.call g xs ∉ (newApp env p cfg w).2.trace.drop w.trace.length) := by
  constructor
  · intro app w1 platform h hcfg hplat himpl hfun
    obtain ⟨a0, a1, a2, hs0, _, hload, hs2, _, hdef⟩ := newApp_ok env p cfg w w1 app h
    have h1 : a1.slot Slot.Releaser = none := by
      rw [(loadComponents_ok env p (componentTable cfg) a0 a1 hload).1 Slot.Releaser ?_]
      · exact hs0 _
      · intro c hmem ht
        apply isSet_false_of_notConfigured
        simp only [componentTable, List.mem_cons, List.mem_singleton, List.not_mem_nil,
          or_false] at hmem
        rcases hmem with e | e | e | e <;> subst e <;> first | exact hcfg | cases ht
    have h2 : a2.Releaser = none := (hs2 Slot.Releaser).trans h1
    rcases defaultReleaser_ok env a2 app w w1 hdef with ⟨e, _, hno⟩ |
      ⟨_, platform1, rawFunc, componentData, R, hp1, _, _, hf, hc, herr, hout, hR, hk,
        happ, hw⟩
    · subst e
      rcases hno with hno | hno | ⟨pl, hpl, hcond⟩
      · exact absurd h2 hno
      · rw [hplat] at hno
        cases hno
      · rw [hplat] at hpl
        cases hpl
        rw [himpl, hfun] at hcond
        simp at hcond
    · have hpe : platform1 = platform := by
        have : app.Platform = a2.Platform := by rw [happ]
        rw [hplat, hp1] at this
        exact (Option.some.inj this).symm
      subst hpe
      obtain ⟨hkp, hgp⟩ := (mapIndex_eq_ret_iff _ _ _).1 hc
      have hmR : mapGet app.components (some R) = some (some componentData) := by
        rw [happ]
        exact mapGet_mapSet_self _ _ _
      have hmP : mapGet app.components app.Platform = some (some componentData) := by
        rw [hplat]
        by_cases hRP : platform1 = R
        · rw [hRP]; exact hmR
        · rw [happ]
          simp only
          rw [mapGet_mapSet_ne _ _ _ _ (fun e => hRP (Option.some.inj e)), hgp]
      have hiR : mapIndex app.components (some R) = Res.ret (some (some componentData)) :=
        (mapIndex_eq_ret_iff _ _ _).2 ⟨hk, hmR⟩
      have hiP : mapIndex app.components app.Platform
          = Res.ret (some (some componentData)) :=
        (mapIndex_eq_ret_iff _ _ _).2 ⟨by rw [hplat]; exact hkp, hmP⟩
      refine ⟨rawFunc, dynamicArgs a2 "app" componentData [], R, componentData, hf, ?_, herr,
        hout, hR, by rw [happ], hmR, hmP, ?_, ?_⟩
      · rw [hw]; rfl
      · unfold App.ComponentProto
        rw [hiR, hiP]
      · unfold App.ComponentProto
        rw [hiP]
  · intro op use hop huse
    have hw := newApp_world_of_configured_releaser env p cfg w op use hop huse
    refine ⟨hw, ?_⟩
    intro g xs
    rw [hw]
    simp

/-- Witness of C4: the sample run of newApp; the platform offers function 20 as its
default releaser, which returns sampleReleaser. -/
theorem newApp_releaser_defaulting_witness :
    (∃ rawFunc args R componentData,
      rawFuncOf sampleEnv (sampleEnv.DefaultReleaserFunc samplePlatform)
        = Res.ret (Except.ok rawFunc)
      ∧ sampleWorld.trace = world0.trace ++ [Event.call rawFunc args, Event.statusClose]
      ∧ (sampleEnv.Call rawFunc args).Err = none
      ∧ (sampleEnv.Call rawFunc args).Out.head? = some (some R)
      ∧ R.typ.Implements Iface.ReleaseManager = true
      ∧ sampleApp.Releaser = some R
      ∧ mapGet sampleApp.components (some R) = some (some componentData)
      ∧ mapGet sampleApp.components sampleApp.Platform = some (some componentData)
      ∧ sampleApp.ComponentProto (some R) = sampleApp.ComponentProto sampleApp.Platform
      ∧ sampleApp.ComponentProto sampleApp.Platform = Res.ret componentData.Info)
    ∧ (newApp sampleEnv sampleProject releaseConfig world0).2 = world0 :=
  ⟨(newApp_releaser_defaulting sampleEnv sampleProject sampleConfig world0).1
      sampleApp sampleWorld samplePlatform (by decide) (Or.inl rfl) rfl (by decide) (by decide),
   ((newApp_releaser_defaulting sampleEnv sampleProject releaseConfig world0).2
      { Use := some { Type_ := "helm", Body := 0 }, Hooks := [], Labels := [] }
      { Type_ := "helm", Body := 0 } rfl rfl).1⟩

/-- With the helm release manager set, the sample run of newApp succeeds, keeps the
configured releaser, and leaves the world as it was. -/
theorem newApp_configured_releaser_sample :
    (newApp sampleEnv sampleProject releaseConfig world0).2 = world0
    ∧ (match (newApp sampleEnv sampleProject releaseConfig world0).1 with
        | Res.ret (some app, none) => decide (app.Releaser = some sampleReleaser)
        | _ => false) = true := by
  decide

/-! ## Cleanup -/

theorem closeLoop_returning (closers : List Closer) :
    ∀ (w : World), (∀ c ∈ closers, ∃ r, c.run = Res.ret r) →
      closeLoop closers w
        = (Res.ret (),
           { statusOpen := w.statusOpen, trace := w.trace ++ closers.map Event.closer }) := by
  induction closers with
  | nil => intro w _; simp [closeLoop]
  | cons c rest ih =>
    intro w h
    obtain ⟨r, hr⟩ := h c (List.mem_cons_self _ _)
    unfold closeLoop
    rw [hr]
    simp only
    rw [ih _ (fun x hx => h x (List.mem_cons_of_mem _ hx))]
    simp [World.log]

theorem closeLoop_panicking (pre : List Closer) (c : Closer) (post : List Closer)
    (msg : String) (hc : c.run = Res.panic msg) :
    ∀ (w : World), (∀ x ∈ pre, ∃ r, x.run = Res.ret r) →
      closeLoop (pre ++ c :: post) w
        = (Res.panic msg,
           { statusOpen := w.statusOpen,
             trace := w.trace ++ (pre ++ [c]).map Event.closer }) := by
  induction pre with
  | nil =>
    intro w _
    simp [closeLoop, hc, World.log]
  | cons x rest ih =>
    intro w h
    obtain ⟨r, hr⟩ := h x (List.mem_cons_self _ _)
    simp only [List.cons_append]
    unfold closeLoop
    rw [hr]
    simp only
    rw [ih _ (fun y hy => h y (List.mem_cons_of_mem _ hy))]
    simp [World.log]

/-- C9: when the closers of the App return (whatever each returns), one call of
Close runs every closer exactly once, in the order of the list, and returns nil;
Close never returns a non-nil error, and a closer that panics ends Close there.
The list is filled in registration order, one closer per plugin instance loaded:
the plugin.Instance block appends the closer of a plugin instance at the end and
nothing for any other value; a run of initComponent appends exactly the closers of
the plugin instances it loaded, and so does a run of initMappers; the closers of
the App that newApp returns are exactly those of the plugin instances newApp
loaded, components first and mapper plugins after, in loading order; and each of
these closers returns nil when Close of its plugin instance returns. -/
theorem Close_runs_every_closer_in_order (a : App) (w : World) :
    ((∀ c ∈ a.closers, ∃ r, c.run = Res.ret r) →
        a.Close w
          = (Res.ret none,
             { statusOpen := w.statusOpen, trace := w.trace ++ a.closers.map Event.closer })
        ∧ (a.Close w).2.trace.drop w.trace.length = a.closers.map Event.closer
        ∧ (∀ c, ((a.Close w).2.trace.drop w.trace.length).count (Event.closer c)
            = a.closers.count c))
    ∧ (∀ err, (a.Close w).1 ≠ Res.ret (some err))
    ∧ (∀ pre c post msg, a.closers = pre ++ c :: post →
        (∀ x ∈ pre, ∃ r, x.run = Res.ret r) → c.run = Res.panic msg →
        a.Close w
          = (Res.panic msg,
             { statusOpen := w.statusOpen,
               trace := w.trace ++ (pre ++ [c]).map Event.closer }))
    ∧ (∀ (env : Env) (b : App) (out : FactoryOut),
        (adoptInstance env b out).2.closers
          = b.closers ++ out.instances.map (closerOf env))
    ∧ (∀ (env : Env) (typ : ComponentType) (target : Target) (f : Option Factory)
        (cfg : Option Operation) (labels : List (String × String)),
        (a.initComponent env typ target f cfg labels).2.closers
          = a.closers ++ (initComponentInstances env a typ target f cfg).map (closerOf env))
    ∧ (∀ (env : Env) (f : Factory),
        (a.initMappers env f).2.closers
          = a.closers ++ (mapperInstances env f f.Registered).map (closerOf env))
    ∧ (∀ (env : Env) (p : Project) (cfg : ConfigApp) (w0 w1 : World),
        newApp env p cfg w0 = (Res.ret (some a, none), w1) →
        a.closers = (newAppInstances env p cfg).map (closerOf env))
    ∧ (∀ (env : Env) (id : Nat), (∃ u, env.InstanceClose id = Res.ret u) →
        (closerOf env id).run = Res.ret none) := by
  refine ⟨?_, ?_, ?_, adoptInstance_closers,
    fun env typ target f cfg labels => initComponent_closers env a typ target f cfg labels,
    fun env f => initMappersLoop_closers env f f.Registered a,
    fun env p cfg w0 w1 h => newApp_closers env p cfg w0 w1 a h, ?_⟩
  · intro hret
    have h : a.Close w
        = (Res.ret none,
           { statusOpen := w.statusOpen,
             trace := w.trace ++ a.closers.map Event.closer }) := by
      unfold App.Close
      rw [closeLoop_returning a.closers w hret]
    refine ⟨h, ?_, ?_⟩
    · rw [h]
      simp
    · intro c
      rw [h]
      simp only [List.drop_left]
      exact List.count_map_of_injective _ Event.closer (fun x y hxy => by cases hxy; rfl) c
  · intro err
    unfold App.Close
    rcases closeLoop a.closers w with ⟨_ | msg, w1⟩ <;> simp
  · intro pre c post msg hcl hpre hc
    unfold App.Close
    rw [hcl, closeLoop_panicking pre c post msg hc w hpre]
  · rintro env id ⟨u, hu⟩
    simp [closerOf, hu]

/-- Witness of C9: the first closer returns an error, the second still runs, and
Close returns nil. -/
theorem Close_runs_every_closer_in_order_witness :
    closersApp.Close world0
      = (Res.ret none,
         { statusOpen := false,
           trace := [Event.closer { pinst := 102, run := Res.ret (some (Error.ext "close failed")) },
                     Event.closer { pinst := 100, run := Res.ret none }] }) :=
  ((Close_runs_every_closer_in_order closersApp world0).1
    (by
      intro c hc
      simp only [closersApp, List.mem_cons, List.mem_singleton, List.not_mem_nil,
        or_false] at hc
      rcases hc with rfl | rfl <;> exact ⟨_, rfl⟩)).1

/-- A closer that panics ends Close before the closers after it: under sampleEnv,
Close of plugin instance 101 panics and the closer of instance 100 does not run. -/
theorem Close_panicking_sample :
    panickingApp.Close world0
      = (Res.panic "plugin died",
         { statusOpen := false, trace := [Event.closer (closerOf sampleEnv 101)] }) := by
  decide

/-- The closers of the App of the sample run of newApp: the builder came from
plugin instance 100, the platform from no plugin instance. -/
theorem newApp_closers_sample :
    newAppInstances sampleEnv sampleProject sampleConfig = [100]
    ∧ sampleApp.closers = [closerOf sampleEnv 100] := by
  decide

end Waypoint
